import Mathlib

set_option maxHeartbeats 1000000

/-!
Shallow embedding of the cross-service reconciliation engine of
spotify-to-tidal-web (`app/sync.py`), together with theorems settling the
specification claims about it.

Modelling conventions:
* Machine state threaded explicitly; Python sets of destination ids become
  `Finset Nat` values that are passed and returned.
* Fallible provider calls are modelled with `Except`/`Option`: `none` or
  `.error e` stands for the call raising exception `e`.
* The two provider SDKs (spotipy / tidalapi) and the `spotify_to_tidal`
  library are external collaborators: their observable behaviour is an
  explicit environment record (`SpotifyEnv`, `TidalEnv`).
* Within one favorites batch the Python code launches three
  `search_tidal_track` coroutines via `asyncio.gather`; the coroutine body
  has no internal await point, so under the single-threaded asyncio loop the
  three searches run to completion one after the other in order.  The model
  therefore processes a batch sequentially, which is the exact execution
  order of the source.
-/

namespace SpotifyToTidal

/-- List-of-chars version of "starts with". -/
def startsList : List Char → List Char → Bool
  | [], _ => true
  | _ :: _, [] => false
  | a :: as, b :: bs => a == b && startsList as bs

/-- List-of-chars contiguous-sublist test. -/
def subList (needle : List Char) : List Char → Bool
  | [] => needle.isEmpty
  | c :: rest => startsList needle (c :: rest) || subList needle rest

/-- Substring test on strings, modelling Python's `in` operator on `str`. -/
def strContains (hay needle : String) : Bool :=
  subList needle.data hay.data

/-- Python's `str.lower`, character by character. -/
def pyLower (s : String) : String :=
  String.mk (s.data.map Char.toLower)

/-- Python's `str.strip`: drop whitespace from both ends. -/
def pyStrip (s : String) : String :=
  String.mk (((s.data.dropWhile Char.isWhitespace).reverse.dropWhile
    Char.isWhitespace).reverse)

/-- A raised exception, as far as `app/sync.py` can observe it:
`isinstance(e, SpotifyException)`, `e.http_status`, and `str(e)`. -/
structure Err where
  isSpotifyException : Bool
  httpStatus : Option Nat
  message : String
deriving DecidableEq, Repr

/-- Embeds `is_auth_error` (app/sync.py lines 74-81). -/
def is_auth_error (e : Err) : Bool :=
  let errStr := pyLower e.message
  (e.isSpotifyException && e.httpStatus == some 401)
    || strContains errStr "401"
    || strContains errStr "token expired"
    || strContains errStr "access token"

/-- Modelled from the spec: the library function `simple`
(`spotify_to_tidal.sync`, imported by app/sync.py but not part of this
repository) truncates a title at the first of `-`, `(`, `[` and trims
whitespace (spec section 4.1). -/
def simple (s : String) : String :=
  pyStrip (String.mk (s.data.takeWhile (fun c => !(c == '-' || c == '(' || c == '['))))

/-- Modelled from the spec: character-level diacritic decomposition used by
the library function `normalize`, mapping common precomposed accented latin
letters to their base letter. -/
def decomposeChar (c : Char) : Char :=
  if c == 'á' || c == 'à' || c == 'â' || c == 'ä' || c == 'ã' then 'a'
  else if c == 'é' || c == 'è' || c == 'ê' || c == 'ë' then 'e'
  else if c == 'í' || c == 'ì' || c == 'î' || c == 'ï' then 'i'
  else if c == 'ó' || c == 'ò' || c == 'ô' || c == 'ö' || c == 'õ' then 'o'
  else if c == 'ú' || c == 'ù' || c == 'û' || c == 'ü' then 'u'
  else if c == 'ñ' then 'n'
  else if c == 'ç' then 'c'
  else c

/-- True for Unicode combining diacritical marks (U+0300 - U+036F). -/
def isCombiningMark (c : Char) : Bool :=
  0x300 ≤ c.toNat && c.toNat ≤ 0x36F

/-- Modelled from the spec: the library function `normalize`
(`spotify_to_tidal.sync`, not part of this repository) strips diacritics by
decomposing and dropping combining marks (spec section 4.1). -/
def normalize (s : String) : String :=
  String.mk ((s.data.map decomposeChar).filter (fun c => !isCombiningMark c))

/-- The canonical comparison key `normalize(simple(x.lower()))` used for
track and artist identity matching (app/sync.py lines 59 and 598). -/
def trackKey (s : String) : String :=
  normalize (simple (pyLower s))

/-- The minimal projection of a Spotify track kept by the app
(app/sync.py lines 279-283): name, artist names, plus the external standard
identifier (ISRC) that the Spotify API exposes; the code never reads it,
but the spec's matching claim mentions it. -/
structure SpotifyTrack where
  name : String
  artistNames : List String
  isrc : Option String
deriving DecidableEq, Repr

/-- A Tidal track search result as observed by the app: `id` and `name`
(and the ISRC the tidalapi object would expose, unread by the code). -/
structure TidalTrack where
  id : Nat
  name : String
  isrc : Option String
deriving DecidableEq, Repr

/-- Saved-album projection kept by the app (app/sync.py lines 237-242). -/
structure SpotifyAlbum where
  name : String
  artistNames : List String
  releaseDate : Option String
  totalTracks : Option Nat
deriving DecidableEq, Repr

/-- A Tidal album search result as observed by the app. -/
structure TidalAlbum where
  id : Nat
  name : String
  artistNames : List String
deriving DecidableEq, Repr

/-- Followed-artist projection kept by the app (app/sync.py line 263). -/
structure SpotifyArtist where
  id : String
  name : String
deriving DecidableEq, Repr

/-- A Tidal artist search result as observed by the app. -/
structure TidalArtist where
  id : Nat
  name : String
deriving DecidableEq, Repr

/-- The destination-side (tidalapi) environment: search results per query,
whether each add call succeeds, the pages returned by the favorites
listings, the user's playlists, and the library's album similarity verdict.
`none` from a search models the call raising. -/
structure TidalEnv where
  searchTracks : String → Option (List TidalTrack)
  searchAlbums : String → Option (List TidalAlbum)
  searchArtists : String → Option (List TidalArtist)
  addTrackOk : Nat → Bool
  addAlbumOk : Nat → Bool
  addArtistOk : Nat → Bool
  trackPages : List (List Nat)
  albumPages : List (List Nat)
  artistPages : List (List Nat)
  allPlaylists : Except Err (List String)
  checkAlbumSimilarity : SpotifyAlbum → TidalAlbum → Bool

/-- A lazily produced source sequence: the items yielded, and the exception
the iteration raises after the last yielded item (if any). -/
structure Iter (α : Type) where
  items : List α
  err : Option Err
deriving DecidableEq, Repr

/-- The source-side (spotipy) environment. `playlistNotFound` is the
content of the library's "songs not found.txt" side channel harvested by
`read_and_clear_not_found_file`. -/
structure SpotifyEnv where
  playlistsFetch : Except Err (List String)
  playlistNotFound : List String
  tracksCount : Except Err Nat
  savedTracks : Iter SpotifyTrack
  albumsCount : Except Err Nat
  savedAlbums : Iter SpotifyAlbum
  artistsCount : Except Err Nat
  followedArtists : Iter SpotifyArtist

/-- The result of `search_tidal_track`: the `(found, not_found_str,
added_count)` tuple, plus the updated `existing_ids` set (mutated in place
in the source). -/
structure SearchOut where
  found : Bool
  notFoundStr : String
  addCount : Nat
  ids : Finset Nat
deriving DecidableEq

/-- The query string `f"{simple(track.name)} {simple(artist_name)}"` built
by `search_tidal_track` (app/sync.py line 52). -/
def track_query (t : SpotifyTrack) : String :=
  simple t.name ++ " " ++ simple (t.artistNames.headD "")

/-- Embeds `search_tidal_track` (app/sync.py lines 49-71).  The `for` loop
over the first five results returns on the first name-key match, so it is a
`find?`; the inner add is attempted only when the id is not yet indexed,
and an add failure falls through to the matched `(True, '', 0)` return. -/
def search_tidal_track (td : TidalEnv) (track : SpotifyTrack)
    (existingIds : Finset Nat) : SearchOut :=
  let artistName := track.artistNames.headD ""
  let nfStr := artistName ++ " - " ++ track.name
  match td.searchTracks (track_query track) with
  | none => ⟨false, nfStr, 0, existingIds⟩
  | some rs =>
    match (rs.take 5).find? (fun c => trackKey c.name == trackKey track.name) with
    | none => ⟨false, nfStr, 0, existingIds⟩
    | some c =>
      if c.id ∈ existingIds then ⟨true, "", 0, existingIds⟩
      else if td.addTrackOk c.id then ⟨true, "", 1, insert c.id existingIds⟩
      else ⟨true, "", 0, existingIds⟩

/-- Per-collection results as built by `run_sync_streaming`: playlists use
`{'synced': ..., 'not_found': ...}`, the other collections
`{'added': ..., 'total': ..., 'not_found': ...}`, and a failed collection
stores `{'error': ...}`. -/
inductive CollResult where
  | playlistRes (synced : Nat) (notFound : List String)
  | stats (added : Nat) (total : Nat) (notFound : List String)
  | errRes (msg : String)
deriving DecidableEq, Repr

/-- The aggregate `result` dict assembled by `run_sync_streaming`. -/
structure RunResult where
  playlists : Option CollResult := none
  favorites : Option CollResult := none
  albums : Option CollResult := none
  artists : Option CollResult := none
  playlistTracksNotFound : Option (List String) := none
  notFoundReport : Option String := none
deriving DecidableEq, Repr

/-- The streamed events.  Each corresponds to one `yield` of
`run_sync_streaming`; the JSON payload's `type` field picks the
constructor.  The playlists progress event also carries `current`/`total`
fields in the JSON, which this model projects away. -/
inductive Event where
  | start (task label : String)
  | progress (task : String) (percent : Nat) (item : String)
  | done (task : String) (res : CollResult)
  | error (task : String) (msg : String)
  | authExpired (service : String)
  | complete (res : RunResult)
deriving DecidableEq, Repr

/-- Outcome of reconciling one album/artist (or one batch of tracks):
updated destination index, adds performed, not-found strings appended. -/
structure StepOut where
  ids : Finset Nat
  addCount : Nat
  nf : List String
deriving DecidableEq

/-- Embeds the per-album body of the albums loop
(app/sync.py lines 514-534): first similar candidate among the first five
results wins; an add failure still counts as matched; a search failure
marks the album not-found. -/
def albumItem (td : TidalEnv) (a : SpotifyAlbum) (favAlbums : Finset Nat) : StepOut :=
  let artistName := a.artistNames.headD ""
  let nfStr := artistName ++ " - " ++ a.name
  match td.searchAlbums (simple a.name ++ " " ++ simple artistName) with
  | none => ⟨favAlbums, 0, [nfStr]⟩
  | some rs =>
    match (rs.take 5).find? (fun c => td.checkAlbumSimilarity a c) with
    | none => ⟨favAlbums, 0, [nfStr]⟩
    | some c =>
      if c.id ∈ favAlbums then ⟨favAlbums, 0, []⟩
      else if td.addAlbumOk c.id then ⟨insert c.id favAlbums, 1, []⟩
      else ⟨favAlbums, 0, []⟩

/-- Embeds the per-artist body of the artists loop
(app/sync.py lines 592-612): same structure as albums but with the strict
name-key equality and a bare artist name as the not-found string. -/
def artistItem (td : TidalEnv) (a : SpotifyArtist) (favArtists : Finset Nat) : StepOut :=
  match td.searchArtists (simple a.name) with
  | none => ⟨favArtists, 0, [a.name]⟩
  | some rs =>
    match (rs.take 5).find? (fun c => trackKey c.name == trackKey a.name) with
    | none => ⟨favArtists, 0, [a.name]⟩
    | some c =>
      if c.id ∈ favArtists then ⟨favArtists, 0, []⟩
      else if td.addArtistOk c.id then ⟨insert c.id favArtists, 1, []⟩
      else ⟨favArtists, 0, []⟩

/-- Embeds the result-collection loop run over one favorites batch
(app/sync.py lines 426-435 and 446-455): each search result contributes
its add count, and `not_found_str` is appended when the track was not
found and the string is non-empty. -/
def processBatch (td : TidalEnv) : List SpotifyTrack → Finset Nat → StepOut
  | [], s => ⟨s, 0, []⟩
  | t :: rest, s =>
    let r := search_tidal_track td t s
    let o := processBatch td rest r.ids
    ⟨o.ids, r.addCount + o.addCount,
      (if !r.found && r.notFoundStr != "" then [r.notFoundStr] else []) ++ o.nf⟩

/-- Splits the saved-tracks stream into the batches the code actually
processes: a batch is dispatched as soon as `MAX_CONCURRENT_SEARCHES = 3`
tracks have accumulated (app/sync.py line 424); the remainder is the final
short batch handled after the loop (line 445). -/
def chunk3 {α : Type} : List α → List (List α) × List α
  | a :: b :: c :: rest =>
    let (cs, r) := chunk3 rest
    ([a, b, c] :: cs, r)
  | small => ([], small)

/-- Embeds the batched favorites-listing loads of the Tidal side
(app/sync.py lines 394-410, 484-498, 562-577): pages of up to 100 ids are
accumulated; an empty page or a short page ends the loop; after every full
page that continues the loop a keep-alive percent-15 progress event is
emitted whose item text reports the ids loaded so far. -/
def loadPages (task label : String) : List (List Nat) → Finset Nat → Finset Nat × List Event
  | [], s => (s, [])
  | p :: rest, s =>
    if p.isEmpty then (s, [])
    else
      let s1 := p.foldl (fun acc i => insert i acc) s
      if p.length < 100 then (s1, [])
      else
        let n := s1.card
        let ev := Event.progress task 15 ("Loaded " ++ toString n ++ label)
        let (s2, evs) := loadPages task label rest s1
        (s2, ev :: evs)

/-- Accumulated state of one collection's processing loop. -/
structure LoopOut where
  events : List Event
  ids : Finset Nat
  processed : Nat
  added : Nat
  nf : List String
deriving DecidableEq

/-- Embeds the batch-processing loop of the favorites collection
(app/sync.py lines 420-442) over the full batches produced by `chunk3`:
each batch is processed, the counters updated, and a progress event
`20 + int(processed / max(total, 1) * 75)` emitted. -/
def favChunksLoop (td : TidalEnv) (total : Nat) :
    List (List SpotifyTrack) → Finset Nat → Nat → Nat → List String → LoopOut
  | [], s, p, a, nf => ⟨[], s, p, a, nf⟩
  | ch :: rest, s, p, a, nf =>
    let b := processBatch td ch s
    let p1 := p + ch.length
    let pct := 20 + p1 * 75 / max total 1
    let ev := Event.progress "favorites" pct
      ("Processing " ++ toString p1 ++ "/" ++ toString total)
    let o := favChunksLoop td total rest b.ids p1 (a + b.addCount) (nf ++ b.nf)
    ⟨ev :: o.events, o.ids, o.processed, o.added, o.nf⟩

/-- Embeds the albums loop (app/sync.py lines 506-536): per album, first a
progress event `20 + int(processed / max(total, 1) * 80)` with the item
string `f"{processed}/{total}: {album_name[:25]}"`, then the reconciliation
step. -/
def albumsLoop (td : TidalEnv) (total : Nat) :
    List SpotifyAlbum → Finset Nat → Nat → Nat → List String → LoopOut
  | [], s, p, a, nf => ⟨[], s, p, a, nf⟩
  | alb :: rest, s, p, a, nf =>
    let p1 := p + 1
    let pct := 20 + p1 * 80 / max total 1
    let name25 := String.mk (alb.name.data.take 25)
    let ev := Event.progress "albums" pct
      (toString p1 ++ "/" ++ toString total ++ ": " ++ name25)
    let st := albumItem td alb s
    let o := albumsLoop td total rest st.ids p1 (a + st.addCount) (nf ++ st.nf)
    ⟨ev :: o.events, o.ids, o.processed, o.added, o.nf⟩

/-- Embeds the artists loop (app/sync.py lines 585-614), structured like
the albums loop with the artist name truncated to 25 characters. -/
def artistsLoop (td : TidalEnv) (total : Nat) :
    List SpotifyArtist → Finset Nat → Nat → Nat → List String → LoopOut
  | [], s, p, a, nf => ⟨[], s, p, a, nf⟩
  | ar :: rest, s, p, a, nf =>
    let p1 := p + 1
    let pct := 20 + p1 * 80 / max total 1
    let name25 := String.mk (ar.name.data.take 25)
    let ev := Event.progress "artists" pct
      (toString p1 ++ "/" ++ toString total ++ ": " ++ name25)
    let st := artistItem td ar s
    let o := artistsLoop td total rest st.ids p1 (a + st.addCount) (nf ++ st.nf)
    ⟨ev :: o.events, o.ids, o.processed, o.added, o.nf⟩

/-- The body of the playlists `try` block (app/sync.py lines 330-369):
fetch the Spotify playlists and the Tidal playlist list (either may
raise), then emit one progress event per playlist with percent
`int((i + 1) / total * 100)` (or a single 100 when `total == 0`, which
cannot occur inside the loop); `sync_playlist` failures are swallowed per
playlist (lines 349-357) and have no observable effect here.  Returns the
emitted events and `(synced_total, playlist_not_found)`. -/
def playlistsBody (sp : SpotifyEnv) (td : TidalEnv) :
    List Event × Except Err (Nat × List String) :=
  match sp.playlistsFetch with
  | Except.error e => ([], Except.error e)
  | Except.ok names =>
    match td.allPlaylists with
    | Except.error e => ([], Except.error e)
    | Except.ok _tidalNames =>
      let total := names.length
      let evs := names.enum.map (fun pr =>
        let pct := if total > 0 then (pr.1 + 1) * 100 / total else 100
        Event.progress "playlists" pct pr.2)
      (evs, Except.ok (total, sp.playlistNotFound))

/-- The body of the favorites `try` block (app/sync.py lines 385-461):
progress 5, count (may raise), progress 10 and 12, batched Tidal
favorites load, chunked processing, then the final short batch (processed
without a progress event, line 445); a page-fetch failure of the source
stream raises after the last full batch. -/
def favoritesBody (sp : SpotifyEnv) (td : TidalEnv) :
    List Event × Except Err CollResult :=
  let e5 := Event.progress "favorites" 5 "Counting tracks..."
  match sp.tracksCount with
  | Except.error e => ([e5], Except.error e)
  | Except.ok total =>
    let e10 := Event.progress "favorites" 10
      ("Found " ++ toString total ++ " tracks")
    let e12 := Event.progress "favorites" 12
      "Loading Tidal favorites (may take a moment)..."
    let (s0, loadEvs) := loadPages "favorites" " Tidal favorites..." td.trackPages ∅
    let (chs, leftover) := chunk3 sp.savedTracks.items
    let lo := favChunksLoop td total chs s0 0 0 []
    match sp.savedTracks.err with
    | some e => (e5 :: e10 :: e12 :: (loadEvs ++ lo.events), Except.error e)
    | none =>
      let fin := processBatch td leftover lo.ids
      (e5 :: e10 :: e12 :: (loadEvs ++ lo.events),
        Except.ok (CollResult.stats (lo.added + fin.addCount) total (lo.nf ++ fin.nf)))

/-- The body of the albums `try` block (app/sync.py lines 475-540). -/
def albumsBody (sp : SpotifyEnv) (td : TidalEnv) :
    List Event × Except Err CollResult :=
  let e5 := Event.progress "albums" 5 "Counting albums..."
  match sp.albumsCount with
  | Except.error e => ([e5], Except.error e)
  | Except.ok total =>
    let e10 := Event.progress "albums" 10
      ("Found " ++ toString total ++ " albums")
    let e12 := Event.progress "albums" 12 "Loading Tidal albums..."
    let (s0, loadEvs) := loadPages "albums" " Tidal albums..." td.albumPages ∅
    let lo := albumsLoop td total sp.savedAlbums.items s0 0 0 []
    match sp.savedAlbums.err with
    | some e => (e5 :: e10 :: e12 :: (loadEvs ++ lo.events), Except.error e)
    | none =>
      (e5 :: e10 :: e12 :: (loadEvs ++ lo.events),
        Except.ok (CollResult.stats lo.added total lo.nf))

/-- The body of the artists `try` block (app/sync.py lines 554-618). -/
def artistsBody (sp : SpotifyEnv) (td : TidalEnv) :
    List Event × Except Err CollResult :=
  let e5 := Event.progress "artists" 5 "Counting artists..."
  match sp.artistsCount with
  | Except.error e => ([e5], Except.error e)
  | Except.ok total =>
    let e10 := Event.progress "artists" 10
      ("Found " ++ toString total ++ " artists")
    let e12 := Event.progress "artists" 12 "Loading Tidal artists..."
    let (s0, loadEvs) := loadPages "artists" " Tidal artists..." td.artistPages ∅
    let lo := artistsLoop td total sp.followedArtists.items s0 0 0 []
    match sp.followedArtists.err with
    | some e => (e5 :: e10 :: e12 :: (loadEvs ++ lo.events), Except.error e)
    | none =>
      (e5 :: e10 :: e12 :: (loadEvs ++ lo.events),
        Except.ok (CollResult.stats lo.added total lo.nf))

/-- Assembles a collection's full event block: `yield start`, the body's
events, and the terminal event chosen by the `except` clause
(app/sync.py lines 370-379, 463-469, 542-548, 620-626): `done` on
success, `auth_expired` on an auth-classified exception, `error`
otherwise. -/
def buildBlock (task label : String) (bodyEvs : List Event)
    (out : Except Err CollResult) : List Event :=
  match out with
  | Except.ok res => Event.start task label :: bodyEvs ++ [Event.done task res]
  | Except.error e =>
    if is_auth_error e then
      Event.start task label :: bodyEvs ++ [Event.authExpired "spotify"]
    else
      Event.start task label :: bodyEvs ++ [Event.error task e.message]

/-- Whether the collection's exception aborts the whole run
(`return` after `auth_expired`). -/
def blockAborts (out : Except Err CollResult) : Bool :=
  match out with
  | Except.ok _ => false
  | Except.error e => is_auth_error e

/-- The `result[...]` update performed by a collection: its result on
success, an error marker on a non-auth failure, nothing on an auth abort
(the `return` precedes the assignment). -/
def resUpdate (out : Except Err CollResult) : Option CollResult :=
  match out with
  | Except.ok res => some res
  | Except.error e =>
    if is_auth_error e then none else some (CollResult.errRes e.message)

/-- The playlists section of `run_sync_streaming`
(lines 327-379): events, updated result (also storing
`playlist_tracks_not_found`), abort flag. -/
def playlistsStep (sp : SpotifyEnv) (td : TidalEnv) (r : RunResult) :
    List Event × RunResult × Bool :=
  let out := (playlistsBody sp td).2.map (fun pr => CollResult.playlistRes pr.1 pr.2)
  let r1 :=
    match (playlistsBody sp td).2 with
    | Except.ok pr =>
      { r with playlists := some (CollResult.playlistRes pr.1 pr.2),
               playlistTracksNotFound := some pr.2 }
    | Except.error e =>
      if is_auth_error e then r
      else { r with playlists := some (CollResult.errRes e.message) }
  (buildBlock "playlists" "Playlists" (playlistsBody sp td).1 out, r1,
    blockAborts out)

/-- The favorites section of `run_sync_streaming` (lines 382-469). -/
def favoritesStep (sp : SpotifyEnv) (td : TidalEnv) (r : RunResult) :
    List Event × RunResult × Bool :=
  let r1 :=
    match resUpdate (favoritesBody sp td).2 with
    | some res => { r with favorites := some res }
    | none => r
  (buildBlock "favorites" "Liked Songs" (favoritesBody sp td).1
      (favoritesBody sp td).2,
    r1, blockAborts (favoritesBody sp td).2)

/-- The albums section of `run_sync_streaming` (lines 472-548). -/
def albumsStep (sp : SpotifyEnv) (td : TidalEnv) (r : RunResult) :
    List Event × RunResult × Bool :=
  let r1 :=
    match resUpdate (albumsBody sp td).2 with
    | some res => { r with albums := some res }
    | none => r
  (buildBlock "albums" "Albums" (albumsBody sp td).1 (albumsBody sp td).2,
    r1, blockAborts (albumsBody sp td).2)

/-- The artists section of `run_sync_streaming` (lines 551-626). -/
def artistsStep (sp : SpotifyEnv) (td : TidalEnv) (r : RunResult) :
    List Event × RunResult × Bool :=
  let r1 :=
    match resUpdate (artistsBody sp td).2 with
    | some res => { r with artists := some res }
    | none => r
  (buildBlock "artists" "Artists" (artistsBody sp td).1 (artistsBody sp td).2,
    r1, blockAborts (artistsBody sp td).2)

/-- A skipped collection (its selection flag is false): no events, result
unchanged, no abort. -/
def skipStep (r : RunResult) : List Event × RunResult × Bool := ([], r, false)

/-- Concatenates collection blocks in order; an aborting block
(`auth_expired` + `return`) truncates everything after it, including the
final event. -/
def assemble : List (List Event × Bool) → List Event → List Event
  | [], fin => fin
  | (evs, ab) :: rest, fin => evs ++ (if ab then [] else assemble rest fin)

/-- Embeds `format_not_found_report`: the bullet-list body of a simple
section. -/
def bulletList (items : List String) : List String :=
  items.map (fun t => "  • " ++ t)

/-- The `"=" * 50` separator line. -/
def eqLine : String := String.mk (List.replicate 50 '=')

/-- The `"-" * 40` separator line. -/
def dashLine : String := String.mk (List.replicate 40 '-')

/-- Per-line formatting of the playlist-tracks section
(app/sync.py lines 184-192). -/
def formatPlaylistLine (line : String) : List String :=
  if startsList ("=").data line.data then ["", line]
  else if startsList ("Playlist:").data line.data then [line, ""]
  else if pyStrip line != "" then ["  • " ++ line] else []

/-- The not-found list carried by an optional collection result (the
Python `result.get(key, {}).get("not_found")` access). -/
def collNotFound : Option CollResult → List String
  | some (CollResult.stats _ _ nf) => nf
  | some (CollResult.playlistRes _ nf) => nf
  | _ => []

/-- Embeds `format_not_found_report` (app/sync.py lines 169-228). -/
def format_not_found_report (r : RunResult) : String :=
  let pl := r.playlistTracksNotFound.getD []
  let favNf := collNotFound r.favorites
  let albNf := collNotFound r.albums
  let artNf := collNotFound r.artists
  let hasItems := !pl.isEmpty || !favNf.isEmpty || !albNf.isEmpty || !artNf.isEmpty
  let base := [eqLine, "SPOTIFY TO TIDAL - NOT FOUND ITEMS", eqLine, ""]
  let plSec :=
    if pl.isEmpty then [] else
      [dashLine, "PLAYLIST TRACKS", dashLine] ++ pl.flatMap formatPlaylistLine ++ [""]
  let favSec :=
    if favNf.isEmpty then [] else
      [dashLine, "LIKED SONGS", dashLine] ++ bulletList favNf ++ [""]
  let albSec :=
    if albNf.isEmpty then [] else
      [dashLine, "ALBUMS", dashLine] ++ bulletList albNf ++ [""]
  let artSec :=
    if artNf.isEmpty then [] else
      [dashLine, "ARTISTS", dashLine] ++ bulletList artNf ++ [""]
  let noneSec :=
    if hasItems then []
    else ["No items were missing - everything synced successfully!"]
  String.intercalate "\n"
    (base ++ plSec ++ favSec ++ albSec ++ artSec ++ noneSec ++ ["", eqLine])

/-- The final result as published in the `complete` event
(app/sync.py lines 629-633). -/
def finalizeResult (r : RunResult) : RunResult :=
  { r with notFoundReport := some (format_not_found_report r) }

/-- Embeds `run_sync_streaming` (app/sync.py lines 312-633): the four
collection sections run in the fixed order playlists, favorites, albums,
artists, gated by their selection flags; an auth abort ends the stream;
otherwise the final `complete` event carries the aggregate result.  The
parameter order matches the Python signature
`(sync_playlists, do_sync_albums, do_sync_artists, do_sync_favorites)`. -/
def step1 (sp : SpotifyEnv) (td : TidalEnv) (p : Bool) :
    List Event × RunResult × Bool :=
  if p then playlistsStep sp td {} else skipStep {}

def step2 (sp : SpotifyEnv) (td : TidalEnv) (p fav : Bool) :
    List Event × RunResult × Bool :=
  if fav then favoritesStep sp td (step1 sp td p).2.1
  else skipStep (step1 sp td p).2.1

def step3 (sp : SpotifyEnv) (td : TidalEnv) (p fav alb : Bool) :
    List Event × RunResult × Bool :=
  if alb then albumsStep sp td (step2 sp td p fav).2.1
  else skipStep (step2 sp td p fav).2.1

def step4 (sp : SpotifyEnv) (td : TidalEnv) (p fav alb art : Bool) :
    List Event × RunResult × Bool :=
  if art then artistsStep sp td (step3 sp td p fav alb).2.1
  else skipStep (step3 sp td p fav alb).2.1

def run_sync_streaming (sp : SpotifyEnv) (td : TidalEnv)
    (syncPlaylists doSyncAlbums doSyncArtists doSyncFavorites : Bool) :
    List Event :=
  assemble
    [((step1 sp td syncPlaylists).1, (step1 sp td syncPlaylists).2.2),
     ((step2 sp td syncPlaylists doSyncFavorites).1,
      (step2 sp td syncPlaylists doSyncFavorites).2.2),
     ((step3 sp td syncPlaylists doSyncFavorites doSyncAlbums).1,
      (step3 sp td syncPlaylists doSyncFavorites doSyncAlbums).2.2),
     ((step4 sp td syncPlaylists doSyncFavorites doSyncAlbums doSyncArtists).1,
      (step4 sp td syncPlaylists doSyncFavorites doSyncAlbums doSyncArtists).2.2)]
    [Event.complete (finalizeResult
      (step4 sp td syncPlaylists doSyncFavorites doSyncAlbums
        doSyncArtists).2.1)]

/-- The loop body of `run_sync`: keep the payload of a `complete` event,
ignore everything else. -/
def keepComplete (acc : RunResult) (e : Event) : RunResult :=
  match e with
  | Event.complete r => r
  | _ => acc

/-- Embeds `run_sync` (app/sync.py lines 636-655): drive the stream and
keep the last `complete` payload, starting from the empty result. -/
def run_sync (sp : SpotifyEnv) (td : TidalEnv)
    (syncPlaylists doSyncAlbums doSyncArtists doSyncFavorites : Bool) :
    RunResult :=
  (run_sync_streaming sp td syncPlaylists doSyncAlbums doSyncArtists
      doSyncFavorites).foldl keepComplete ({} : RunResult)

/-- A destination environment whose searches return no candidates and
whose listings are empty. -/
def emptyTd : TidalEnv where
  searchTracks := fun _ => some []
  searchAlbums := fun _ => some []
  searchArtists := fun _ => some []
  addTrackOk := fun _ => false
  addAlbumOk := fun _ => false
  addArtistOk := fun _ => false
  trackPages := []
  albumPages := []
  artistPages := []
  allPlaylists := Except.ok []
  checkAlbumSimilarity := fun _ _ => false

/-- A source environment with nothing to sync. -/
def emptySp : SpotifyEnv where
  playlistsFetch := Except.ok []
  playlistNotFound := []
  tracksCount := Except.ok 0
  savedTracks := ⟨[], none⟩
  albumsCount := Except.ok 0
  savedAlbums := ⟨[], none⟩
  artistsCount := Except.ok 0
  followedArtists := ⟨[], none⟩

/-- A source environment whose playlist fetch raises a token-expiry
error. -/
def authSp : SpotifyEnv :=
  { emptySp with playlistsFetch := Except.error ⟨false, none, "token expired"⟩ }

/-- The percent values of the progress events of one collection, in
emission order. -/
def progressPercents (task : String) (evs : List Event) : List Nat :=
  evs.filterMap (fun e => match e with
    | Event.progress t p _ => if t == task then some p else none
    | _ => none)

/-- Whether an event is a progress event of the given collection. -/
def isProgressFor (task : String) : Event → Bool
  | Event.progress t _ _ => t == task
  | _ => false

/-- Whether an event is a terminal (`done` or `error`) event of the given
collection. -/
def isTerminalFor (task : String) : Event → Bool
  | Event.done t _ => t == task
  | Event.error t _ => t == task
  | _ => false

/-- Modelled from the spec: the track identity match as the specification
states it (section 4.2) — exact equality of the external standard
identifier when both sides expose one, checked first as a short circuit,
otherwise exact equality of `normalize(simple(lowercase(name)))`.  Stated
for comparison against the match `search_tidal_track` actually performs. -/
def specTrackMatch (src : SpotifyTrack) (cand : TidalTrack) : Bool :=
  match src.isrc, cand.isrc with
  | some a, some b => a == b || trackKey cand.name == trackKey src.name
  | _, _ => trackKey cand.name == trackKey src.name

/-- The first name-key-matching candidate the track search would return:
this is the candidate `search_tidal_track`'s loop stops at. -/
def trackCandidate (td : TidalEnv) (t : SpotifyTrack) : Option TidalTrack :=
  match td.searchTracks (track_query t) with
  | none => none
  | some rs => (rs.take 5).find? (fun c => trackKey c.name == trackKey t.name)

/-- The first similar candidate of the album search. -/
def albumCandidate (td : TidalEnv) (a : SpotifyAlbum) : Option TidalAlbum :=
  match td.searchAlbums (simple a.name ++ " " ++ simple (a.artistNames.headD "")) with
  | none => none
  | some rs => (rs.take 5).find? (fun c => td.checkAlbumSimilarity a c)

/-- The first name-key-matching candidate of the artist search. -/
def artistCandidate (td : TidalEnv) (a : SpotifyArtist) : Option TidalArtist :=
  match td.searchArtists (simple a.name) with
  | none => none
  | some rs => (rs.take 5).find? (fun c => trackKey c.name == trackKey a.name)

lemma subset_foldl_insert (p : List Nat) (S : Finset Nat) :
    S ⊆ p.foldl (fun acc i => insert i acc) S := by
  induction p generalizing S with
  | nil => exact Finset.Subset.refl S
  | cons a p ih =>
    simp only [List.foldl_cons]
    exact (Finset.subset_insert a S).trans (ih (insert a S))

/-- One track search only grows the index, and it grows exactly by the id
of a successfully added candidate. -/
lemma search_tidal_track_ids (td : TidalEnv) (t : SpotifyTrack) (S : Finset Nat) :
    S ⊆ (search_tidal_track td t S).ids ∧
      (((search_tidal_track td t S).ids = S ∧
          (search_tidal_track td t S).addCount = 0) ∨
        ∃ i, i ∉ S ∧ td.addTrackOk i = true ∧
          (search_tidal_track td t S).addCount = 1 ∧
          (search_tidal_track td t S).ids = insert i S) := by
  unfold search_tidal_track
  split
  · simp
  · split
    · simp
    · rename_i c _
      split_ifs with hmem hadd
      · simp
      · exact ⟨Finset.subset_insert _ _, Or.inr ⟨c.id, hmem, hadd, rfl, rfl⟩⟩
      · simp_all

/-- One album step only grows the index, and it grows exactly by the id
of a successfully added candidate. -/
lemma albumItem_ids (td : TidalEnv) (a : SpotifyAlbum) (S : Finset Nat) :
    S ⊆ (albumItem td a S).ids ∧
      (((albumItem td a S).ids = S ∧ (albumItem td a S).addCount = 0) ∨
        ∃ i, i ∉ S ∧ td.addAlbumOk i = true ∧
          (albumItem td a S).addCount = 1 ∧
          (albumItem td a S).ids = insert i S) := by
  unfold albumItem
  dsimp only
  split
  · simp
  · split
    · simp
    · rename_i c _
      split_ifs with hmem hadd
      · simp
      · exact ⟨Finset.subset_insert _ _, Or.inr ⟨c.id, hmem, hadd, rfl, rfl⟩⟩
      · simp_all

/-- One artist step only grows the index, and it grows exactly by the id
of a successfully added candidate. -/
lemma artistItem_ids (td : TidalEnv) (a : SpotifyArtist) (S : Finset Nat) :
    S ⊆ (artistItem td a S).ids ∧
      (((artistItem td a S).ids = S ∧ (artistItem td a S).addCount = 0) ∨
        ∃ i, i ∉ S ∧ td.addArtistOk i = true ∧
          (artistItem td a S).addCount = 1 ∧
          (artistItem td a S).ids = insert i S) := by
  unfold artistItem
  split
  · simp
  · split
    · simp
    · rename_i c _
      split_ifs with hmem hadd
      · simp
      · exact ⟨Finset.subset_insert _ _, Or.inr ⟨c.id, hmem, hadd, rfl, rfl⟩⟩
      · simp_all

lemma processBatch_subset (td : TidalEnv) (ts : List SpotifyTrack) (S : Finset Nat) :
    S ⊆ (processBatch td ts S).ids := by
  induction ts generalizing S with
  | nil => exact Finset.Subset.refl S
  | cons t rest ih =>
    exact (search_tidal_track_ids td t S).1.trans (ih (search_tidal_track td t S).ids)

lemma favChunksLoop_subset (td : TidalEnv) (total : Nat)
    (chs : List (List SpotifyTrack)) (S : Finset Nat) (p a : Nat) (nf : List String) :
    S ⊆ (favChunksLoop td total chs S p a nf).ids := by
  induction chs generalizing S p a nf with
  | nil => exact Finset.Subset.refl S
  | cons ch rest ih =>
    exact (processBatch_subset td ch S).trans (ih _ _ _ _)

lemma albumsLoop_subset (td : TidalEnv) (total : Nat)
    (items : List SpotifyAlbum) (S : Finset Nat) (p a : Nat) (nf : List String) :
    S ⊆ (albumsLoop td total items S p a nf).ids := by
  induction items generalizing S p a nf with
  | nil => exact Finset.Subset.refl S
  | cons alb rest ih =>
    exact (albumItem_ids td alb S).1.trans (ih _ _ _ _)

lemma artistsLoop_subset (td : TidalEnv) (total : Nat)
    (items : List SpotifyArtist) (S : Finset Nat) (p a : Nat) (nf : List String) :
    S ⊆ (artistsLoop td total items S p a nf).ids := by
  induction items generalizing S p a nf with
  | nil => exact Finset.Subset.refl S
  | cons ar rest ih =>
    exact (artistItem_ids td ar S).1.trans (ih _ _ _ _)

/-- `search_tidal_track` restated through the candidate its result loop
stops at. -/
lemma search_tidal_track_eq (td : TidalEnv) (t : SpotifyTrack) (S : Finset Nat) :
    search_tidal_track td t S =
      match trackCandidate td t with
      | none => ⟨false, (t.artistNames.headD "") ++ " - " ++ t.name, 0, S⟩
      | some c =>
        if c.id ∈ S then ⟨true, "", 0, S⟩
        else if td.addTrackOk c.id then ⟨true, "", 1, insert c.id S⟩
        else ⟨true, "", 0, S⟩ := by
  unfold search_tidal_track trackCandidate
  dsimp only
  cases td.searchTracks (track_query t) with
  | none => rfl
  | some rs =>
    cases (rs.take 5).find? (fun c => trackKey c.name == trackKey t.name) with
    | none => rfl
    | some c => rfl

/-- `albumItem` restated through its candidate. -/
lemma albumItem_eq (td : TidalEnv) (a : SpotifyAlbum) (S : Finset Nat) :
    albumItem td a S =
      match albumCandidate td a with
      | none => ⟨S, 0, [(a.artistNames.headD "") ++ " - " ++ a.name]⟩
      | some c =>
        if c.id ∈ S then ⟨S, 0, []⟩
        else if td.addAlbumOk c.id then ⟨insert c.id S, 1, []⟩
        else ⟨S, 0, []⟩ := by
  unfold albumItem albumCandidate
  dsimp only
  cases td.searchAlbums (simple a.name ++ " " ++ simple (a.artistNames.headD "")) with
  | none => rfl
  | some rs =>
    cases (rs.take 5).find? (fun c => td.checkAlbumSimilarity a c) with
    | none => rfl
    | some c => rfl

/-- `artistItem` restated through its candidate. -/
lemma artistItem_eq (td : TidalEnv) (a : SpotifyArtist) (S : Finset Nat) :
    artistItem td a S =
      match artistCandidate td a with
      | none => ⟨S, 0, [a.name]⟩
      | some c =>
        if c.id ∈ S then ⟨S, 0, []⟩
        else if td.addArtistOk c.id then ⟨insert c.id S, 1, []⟩
        else ⟨S, 0, []⟩ := by
  unfold artistItem artistCandidate
  cases td.searchArtists (simple a.name) with
  | none => rfl
  | some rs =>
    cases (rs.take 5).find? (fun c => trackKey c.name == trackKey a.name) with
    | none => rfl
    | some c => rfl

/-- The index covers a track when its chosen candidate is already present
or its add would fail; a covered track can never produce an add. -/
def trackCovered (td : TidalEnv) (t : SpotifyTrack) (S : Finset Nat) : Prop :=
  ∀ c, trackCandidate td t = some c → c.id ∈ S ∨ td.addTrackOk c.id = false

def albumCovered (td : TidalEnv) (a : SpotifyAlbum) (S : Finset Nat) : Prop :=
  ∀ c, albumCandidate td a = some c → c.id ∈ S ∨ td.addAlbumOk c.id = false

def artistCovered (td : TidalEnv) (a : SpotifyArtist) (S : Finset Nat) : Prop :=
  ∀ c, artistCandidate td a = some c → c.id ∈ S ∨ td.addArtistOk c.id = false

lemma trackCovered_mono {td : TidalEnv} {t : SpotifyTrack} {S S' : Finset Nat}
    (hss : S ⊆ S') (h : trackCovered td t S) : trackCovered td t S' := by
  intro c hc
  rcases h c hc with h1 | h1
  · exact Or.inl (hss h1)
  · exact Or.inr h1

lemma albumCovered_mono {td : TidalEnv} {a : SpotifyAlbum} {S S' : Finset Nat}
    (hss : S ⊆ S') (h : albumCovered td a S) : albumCovered td a S' := by
  intro c hc
  rcases h c hc with h1 | h1
  · exact Or.inl (hss h1)
  · exact Or.inr h1

lemma artistCovered_mono {td : TidalEnv} {a : SpotifyArtist} {S S' : Finset Nat}
    (hss : S ⊆ S') (h : artistCovered td a S) : artistCovered td a S' := by
  intro c hc
  rcases h c hc with h1 | h1
  · exact Or.inl (hss h1)
  · exact Or.inr h1

/-- After processing a track, its candidate is covered by the resulting
index. -/
lemma search_tidal_track_covered_post (td : TidalEnv) (t : SpotifyTrack)
    (S : Finset Nat) : trackCovered td t (search_tidal_track td t S).ids := by
  intro c hc
  rw [search_tidal_track_eq, hc]
  by_cases hmem : c.id ∈ S
  · simp [hmem]
  · by_cases hadd : td.addTrackOk c.id
    · simp [hmem, hadd]
    · simp only [Bool.not_eq_true] at hadd
      simp [hmem, hadd]

/-- Processing a covered track changes nothing and adds nothing. -/
lemma search_tidal_track_noop (td : TidalEnv) (t : SpotifyTrack)
    {S : Finset Nat} (h : trackCovered td t S) :
    (search_tidal_track td t S).ids = S ∧
      (search_tidal_track td t S).addCount = 0 := by
  rw [search_tidal_track_eq]
  cases hc : trackCandidate td t with
  | none => exact ⟨rfl, rfl⟩
  | some c =>
    rcases h c hc with h1 | h1
    · simp [h1]
    · by_cases hmem : c.id ∈ S
      · simp [hmem]
      · simp [hmem, h1]

lemma albumItem_covered_post (td : TidalEnv) (a : SpotifyAlbum)
    (S : Finset Nat) : albumCovered td a (albumItem td a S).ids := by
  intro c hc
  rw [albumItem_eq, hc]
  by_cases hmem : c.id ∈ S
  · simp [hmem]
  · by_cases hadd : td.addAlbumOk c.id
    · simp [hmem, hadd]
    · simp only [Bool.not_eq_true] at hadd
      simp [hmem, hadd]

lemma albumItem_noop (td : TidalEnv) (a : SpotifyAlbum)
    {S : Finset Nat} (h : albumCovered td a S) :
    (albumItem td a S).ids = S ∧ (albumItem td a S).addCount = 0 := by
  rw [albumItem_eq]
  cases hc : albumCandidate td a with
  | none => exact ⟨rfl, rfl⟩
  | some c =>
    rcases h c hc with h1 | h1
    · simp [h1]
    · by_cases hmem : c.id ∈ S
      · simp [hmem]
      · simp [hmem, h1]

lemma artistItem_covered_post (td : TidalEnv) (a : SpotifyArtist)
    (S : Finset Nat) : artistCovered td a (artistItem td a S).ids := by
  intro c hc
  rw [artistItem_eq, hc]
  by_cases hmem : c.id ∈ S
  · simp [hmem]
  · by_cases hadd : td.addArtistOk c.id
    · simp [hmem, hadd]
    · simp only [Bool.not_eq_true] at hadd
      simp [hmem, hadd]

lemma artistItem_noop (td : TidalEnv) (a : SpotifyArtist)
    {S : Finset Nat} (h : artistCovered td a S) :
    (artistItem td a S).ids = S ∧ (artistItem td a S).addCount = 0 := by
  rw [artistItem_eq]
  cases hc : artistCandidate td a with
  | none => exact ⟨rfl, rfl⟩
  | some c =>
    rcases h c hc with h1 | h1
    · simp [h1]
    · by_cases hmem : c.id ∈ S
      · simp [hmem]
      · simp [hmem, h1]

lemma loadPages_subset (task label : String) (pages : List (List Nat)) (S : Finset Nat) :
    S ⊆ (loadPages task label pages S).1 := by
  induction pages generalizing S with
  | nil => exact Finset.Subset.refl S
  | cons p rest ih =>
    by_cases hp : p.isEmpty
    · simp [loadPages, hp]
    · by_cases hl : p.length < 100
      · simpa [loadPages, hp, hl] using subset_foldl_insert p S
      · refine (subset_foldl_insert p S).trans ?_
        simpa [loadPages, hp, hl] using
          ih (p.foldl (fun acc i => insert i acc) S)

lemma processBatch_covered_post (td : TidalEnv) (ts : List SpotifyTrack) :
    ∀ S, ∀ t ∈ ts, trackCovered td t (processBatch td ts S).ids := by
  induction ts with
  | nil => simp
  | cons t rest ih =>
    intro S u hu
    have hids : (processBatch td (t :: rest) S).ids
        = (processBatch td rest (search_tidal_track td t S).ids).ids := rfl
    rw [hids]
    rcases List.mem_cons.mp hu with h | h
    · subst h
      exact trackCovered_mono (processBatch_subset td rest _)
        (search_tidal_track_covered_post td u S)
    · exact ih _ u h

lemma processBatch_noop (td : TidalEnv) (ts : List SpotifyTrack) :
    ∀ S, (∀ t ∈ ts, trackCovered td t S) →
      (processBatch td ts S).ids = S ∧ (processBatch td ts S).addCount = 0 := by
  induction ts with
  | nil => exact fun S _ => ⟨rfl, rfl⟩
  | cons t rest ih =>
    intro S h
    obtain ⟨hid, hcnt⟩ := search_tidal_track_noop td t (h t (List.mem_cons_self t rest))
    have hids : (processBatch td (t :: rest) S).ids
        = (processBatch td rest (search_tidal_track td t S).ids).ids := rfl
    have hcnts : (processBatch td (t :: rest) S).addCount
        = (search_tidal_track td t S).addCount
          + (processBatch td rest (search_tidal_track td t S).ids).addCount := rfl
    obtain ⟨hid2, hcnt2⟩ := ih S (fun u hu => h u (List.mem_cons_of_mem t hu))
    rw [hids, hcnts, hid, hcnt, hid2, hcnt2]
    exact ⟨rfl, rfl⟩

lemma favChunksLoop_covered_post (td : TidalEnv) (total : Nat)
    (chs : List (List SpotifyTrack)) :
    ∀ S p a nf, ∀ ch ∈ chs, ∀ t ∈ ch,
      trackCovered td t (favChunksLoop td total chs S p a nf).ids := by
  induction chs with
  | nil => simp
  | cons ch rest ih =>
    intro S p a nf ch' hch t ht
    have hids : (favChunksLoop td total (ch :: rest) S p a nf).ids
        = (favChunksLoop td total rest (processBatch td ch S).ids (p + ch.length)
            (a + (processBatch td ch S).addCount) (nf ++ (processBatch td ch S).nf)).ids := rfl
    rw [hids]
    rcases List.mem_cons.mp hch with h | h
    · subst h
      exact trackCovered_mono (favChunksLoop_subset td total rest _ _ _ _)
        (processBatch_covered_post td ch' S t ht)
    · exact ih _ _ _ _ ch' h t ht

lemma favChunksLoop_noop (td : TidalEnv) (total : Nat)
    (chs : List (List SpotifyTrack)) :
    ∀ S p a nf, (∀ ch ∈ chs, ∀ t ∈ ch, trackCovered td t S) →
      (favChunksLoop td total chs S p a nf).ids = S ∧
        (favChunksLoop td total chs S p a nf).added = a := by
  induction chs with
  | nil => exact fun S p a nf _ => ⟨rfl, rfl⟩
  | cons ch rest ih =>
    intro S p a nf h
    obtain ⟨hid, hcnt⟩ :=
      processBatch_noop td ch S (fun t ht => h ch (List.mem_cons_self ch rest) t ht)
    have hids : (favChunksLoop td total (ch :: rest) S p a nf).ids
        = (favChunksLoop td total rest (processBatch td ch S).ids (p + ch.length)
            (a + (processBatch td ch S).addCount) (nf ++ (processBatch td ch S).nf)).ids := rfl
    have hadds : (favChunksLoop td total (ch :: rest) S p a nf).added
        = (favChunksLoop td total rest (processBatch td ch S).ids (p + ch.length)
            (a + (processBatch td ch S).addCount) (nf ++ (processBatch td ch S).nf)).added := rfl
    rw [hids, hadds, hid, hcnt]
    obtain ⟨hid2, hcnt2⟩ := ih S (p + ch.length) (a + 0) (nf ++ (processBatch td ch S).nf)
      (fun ch' hch t ht => h ch' (List.mem_cons_of_mem ch hch) t ht)
    rw [hid2, hcnt2]
    exact ⟨rfl, by omega⟩

lemma albumsLoop_covered_post (td : TidalEnv) (total : Nat)
    (its : List SpotifyAlbum) :
    ∀ S p a nf, ∀ alb ∈ its,
      albumCovered td alb (albumsLoop td total its S p a nf).ids := by
  induction its with
  | nil => simp
  | cons alb rest ih =>
    intro S p a nf alb' halb
    have hids : (albumsLoop td total (alb :: rest) S p a nf).ids
        = (albumsLoop td total rest (albumItem td alb S).ids (p + 1)
            (a + (albumItem td alb S).addCount) (nf ++ (albumItem td alb S).nf)).ids := rfl
    rw [hids]
    rcases List.mem_cons.mp halb with h | h
    · subst h
      exact albumCovered_mono (albumsLoop_subset td total rest _ _ _ _)
        (albumItem_covered_post td alb' S)
    · exact ih _ _ _ _ alb' h

lemma albumsLoop_noop (td : TidalEnv) (total : Nat) (its : List SpotifyAlbum) :
    ∀ S p a nf, (∀ alb ∈ its, albumCovered td alb S) →
      (albumsLoop td total its S p a nf).ids = S ∧
        (albumsLoop td total its S p a nf).added = a := by
  induction its with
  | nil => exact fun S p a nf _ => ⟨rfl, rfl⟩
  | cons alb rest ih =>
    intro S p a nf h
    obtain ⟨hid, hcnt⟩ := albumItem_noop td alb (h alb (List.mem_cons_self alb rest))
    have hids : (albumsLoop td total (alb :: rest) S p a nf).ids
        = (albumsLoop td total rest (albumItem td alb S).ids (p + 1)
            (a + (albumItem td alb S).addCount) (nf ++ (albumItem td alb S).nf)).ids := rfl
    have hadds : (albumsLoop td total (alb :: rest) S p a nf).added
        = (albumsLoop td total rest (albumItem td alb S).ids (p + 1)
            (a + (albumItem td alb S).addCount) (nf ++ (albumItem td alb S).nf)).added := rfl
    rw [hids, hadds, hid, hcnt]
    obtain ⟨hid2, hcnt2⟩ := ih S (p + 1) (a + 0) (nf ++ (albumItem td alb S).nf)
      (fun alb' halb => h alb' (List.mem_cons_of_mem alb halb))
    rw [hid2, hcnt2]
    exact ⟨rfl, by omega⟩

lemma artistsLoop_covered_post (td : TidalEnv) (total : Nat)
    (its : List SpotifyArtist) :
    ∀ S p a nf, ∀ ar ∈ its,
      artistCovered td ar (artistsLoop td total its S p a nf).ids := by
  induction its with
  | nil => simp
  | cons ar rest ih =>
    intro S p a nf ar' har
    have hids : (artistsLoop td total (ar :: rest) S p a nf).ids
        = (artistsLoop td total rest (artistItem td ar S).ids (p + 1)
            (a + (artistItem td ar S).addCount) (nf ++ (artistItem td ar S).nf)).ids := rfl
    rw [hids]
    rcases List.mem_cons.mp har with h | h
    · subst h
      exact artistCovered_mono (artistsLoop_subset td total rest _ _ _ _)
        (artistItem_covered_post td ar' S)
    · exact ih _ _ _ _ ar' h

lemma artistsLoop_noop (td : TidalEnv) (total : Nat) (its : List SpotifyArtist) :
    ∀ S p a nf, (∀ ar ∈ its, artistCovered td ar S) →
      (artistsLoop td total its S p a nf).ids = S ∧
        (artistsLoop td total its S p a nf).added = a := by
  induction its with
  | nil => exact fun S p a nf _ => ⟨rfl, rfl⟩
  | cons ar rest ih =>
    intro S p a nf h
    obtain ⟨hid, hcnt⟩ := artistItem_noop td ar (h ar (List.mem_cons_self ar rest))
    have hids : (artistsLoop td total (ar :: rest) S p a nf).ids
        = (artistsLoop td total rest (artistItem td ar S).ids (p + 1)
            (a + (artistItem td ar S).addCount) (nf ++ (artistItem td ar S).nf)).ids := rfl
    have hadds : (artistsLoop td total (ar :: rest) S p a nf).added
        = (artistsLoop td total rest (artistItem td ar S).ids (p + 1)
            (a + (artistItem td ar S).addCount) (nf ++ (artistItem td ar S).nf)).added := rfl
    rw [hids, hadds, hid, hcnt]
    obtain ⟨hid2, hcnt2⟩ := ih S (p + 1) (a + 0) (nf ++ (artistItem td ar S).nf)
      (fun ar' har => h ar' (List.mem_cons_of_mem ar har))
    rw [hid2, hcnt2]
    exact ⟨rfl, by omega⟩


/-- An "Artist - Title" string is never empty. -/
lemma sep_string_ne_empty (a b : String) : ((a ++ " - " ++ b) != "") = true := by
  rw [bne_iff_ne]
  intro h
  have hlen := congrArg String.length h
  simp only [String.length_append] at hlen
  have h3 : (" - ").length = 3 := rfl
  have h0 : ("" : String).length = 0 := rfl
  rw [h3, h0] at hlen
  omega

/-- A Spotify track whose canonical key matches the candidate "song a". -/
def trackA : SpotifyTrack := ⟨"Song A", ["Artist X"], none⟩

/-- A destination where every track search returns one matching candidate
(id 9) and every add succeeds. -/
def addOkTd : TidalEnv :=
  { emptyTd with
    searchTracks := fun _ => some [⟨9, "song a", none⟩]
    addTrackOk := fun _ => true }

/-- A destination where every track search returns one matching candidate
(id 5) and every add fails. -/
def addFailTd : TidalEnv :=
  { emptyTd with
    searchTracks := fun _ => some [⟨5, "song a", none⟩]
    addTrackOk := fun _ => false }

/-- A source track and a destination candidate that carry the same
external standard identifier but completely different names. -/
def isrcTrack : SpotifyTrack := ⟨"Foo", ["A"], some "ISRC1"⟩

def isrcCand : TidalTrack := ⟨7, "Completely Different", some "ISRC1"⟩

/-- A destination whose track search returns only `isrcCand`. -/
def isrcTd : TidalEnv :=
  { emptyTd with searchTracks := fun _ => some [isrcCand] }

/-- C7: the Destination Index only grows: every item step either leaves
the index unchanged (and adds nothing) or inserts exactly the identifier
of a successfully added candidate, and all loops and the initial batched
load only extend the set they are given. -/
theorem c7_destination_index_only_grows (td : TidalEnv) :
    (∀ t S, S ⊆ (search_tidal_track td t S).ids ∧
      (((search_tidal_track td t S).ids = S ∧
          (search_tidal_track td t S).addCount = 0) ∨
        ∃ i, i ∉ S ∧ td.addTrackOk i = true ∧
          (search_tidal_track td t S).addCount = 1 ∧
          (search_tidal_track td t S).ids = insert i S)) ∧
    (∀ a S, S ⊆ (albumItem td a S).ids ∧
      (((albumItem td a S).ids = S ∧ (albumItem td a S).addCount = 0) ∨
        ∃ i, i ∉ S ∧ td.addAlbumOk i = true ∧
          (albumItem td a S).addCount = 1 ∧
          (albumItem td a S).ids = insert i S)) ∧
    (∀ a S, S ⊆ (artistItem td a S).ids ∧
      (((artistItem td a S).ids = S ∧ (artistItem td a S).addCount = 0) ∨
        ∃ i, i ∉ S ∧ td.addArtistOk i = true ∧
          (artistItem td a S).addCount = 1 ∧
          (artistItem td a S).ids = insert i S)) ∧
    (∀ ts S, S ⊆ (processBatch td ts S).ids) ∧
    (∀ total chs S p a nf, S ⊆ (favChunksLoop td total chs S p a nf).ids) ∧
    (∀ total its S p a nf, S ⊆ (albumsLoop td total its S p a nf).ids) ∧
    (∀ total its S p a nf, S ⊆ (artistsLoop td total its S p a nf).ids) ∧
    (∀ task label pages S, S ⊆ (loadPages task label pages S).1) :=
  ⟨fun t S => search_tidal_track_ids td t S,
   fun a S => albumItem_ids td a S,
   fun a S => artistItem_ids td a S,
   fun ts S => processBatch_subset td ts S,
   fun total chs S p a nf => favChunksLoop_subset td total chs S p a nf,
   fun total its S p a nf => albumsLoop_subset td total its S p a nf,
   fun total its S p a nf => artistsLoop_subset td total its S p a nf,
   fun task label pages S => loadPages_subset task label pages S⟩

/-- C6: a second run over the same source items, starting from an index
containing everything the first run ended with, performs zero adds — for
the favorites pipeline (chunked batches plus final short batch), the
albums loop and the artists loop. -/
theorem c6_second_run_adds_nothing (td : TidalEnv) :
    (∀ (ts : List SpotifyTrack) (S0 S2 : Finset Nat),
      (processBatch td ts S0).ids ⊆ S2 →
      (processBatch td ts S2).addCount = 0) ∧
    (∀ (total1 total2 : Nat) (ts : List SpotifyTrack) (S0 S2 : Finset Nat),
      (processBatch td (chunk3 ts).2
          (favChunksLoop td total1 (chunk3 ts).1 S0 0 0 []).ids).ids ⊆ S2 →
      (favChunksLoop td total2 (chunk3 ts).1 S2 0 0 []).added
        + (processBatch td (chunk3 ts).2
            (favChunksLoop td total2 (chunk3 ts).1 S2 0 0 []).ids).addCount = 0) ∧
    (∀ (total1 total2 p1 a1 p2 a2 : Nat) (nf1 nf2 : List String)
        (its : List SpotifyAlbum) (S0 S2 : Finset Nat),
      (albumsLoop td total1 its S0 p1 a1 nf1).ids ⊆ S2 →
      (albumsLoop td total2 its S2 p2 a2 nf2).added = a2) ∧
    (∀ (total1 total2 p1 a1 p2 a2 : Nat) (nf1 nf2 : List String)
        (its : List SpotifyArtist) (S0 S2 : Finset Nat),
      (artistsLoop td total1 its S0 p1 a1 nf1).ids ⊆ S2 →
      (artistsLoop td total2 its S2 p2 a2 nf2).added = a2) := by
  refine ⟨?_, ?_, ?_, ?_⟩
  · intro ts S0 S2 h
    exact (processBatch_noop td ts S2 (fun t ht =>
      trackCovered_mono h (processBatch_covered_post td ts S0 t ht))).2
  · intro total1 total2 ts S0 S2 h
    have hch : ∀ ch ∈ (chunk3 ts).1, ∀ t ∈ ch, trackCovered td t S2 := by
      intro ch hch t ht
      refine trackCovered_mono h ?_
      refine trackCovered_mono (processBatch_subset td (chunk3 ts).2 _) ?_
      exact favChunksLoop_covered_post td total1 (chunk3 ts).1 S0 0 0 [] ch hch t ht
    obtain ⟨hid2, hadd2⟩ :=
      favChunksLoop_noop td total2 (chunk3 ts).1 S2 0 0 [] hch
    have hlv : ∀ t ∈ (chunk3 ts).2, trackCovered td t S2 := by
      intro t ht
      refine trackCovered_mono h ?_
      exact processBatch_covered_post td (chunk3 ts).2 _ t ht
    rw [hid2, hadd2, (processBatch_noop td (chunk3 ts).2 S2 hlv).2]
  · intro total1 total2 p1 a1 p2 a2 nf1 nf2 its S0 S2 h
    exact (albumsLoop_noop td total2 its S2 p2 a2 nf2 (fun alb halb =>
      albumCovered_mono h
        (albumsLoop_covered_post td total1 its S0 p1 a1 nf1 alb halb))).2
  · intro total1 total2 p1 a1 p2 a2 nf1 nf2 its S0 S2 h
    exact (artistsLoop_noop td total2 its S2 p2 a2 nf2 (fun ar har =>
      artistCovered_mono h
        (artistsLoop_covered_post td total1 its S0 p1 a1 nf1 ar har))).2

/-- C6 witness: a first run over one track against an empty index adds id
9; a second run starting from `{9}` adds nothing. -/
theorem c6_second_run_adds_nothing_witness :
    (processBatch addOkTd [trackA] ∅).ids ⊆ ({9} : Finset Nat) ∧
      (processBatch addOkTd [trackA] ({9} : Finset Nat)).addCount = 0 := by
  have h : (processBatch addOkTd [trackA] ∅).ids = ({9} : Finset Nat) := by decide
  have hsub : (processBatch addOkTd [trackA] ∅).ids ⊆ ({9} : Finset Nat) := by
    rw [h]
  exact ⟨hsub, (c6_second_run_adds_nothing addOkTd).1 [trackA] ∅ {9} hsub⟩

/-- A destination whose track search always raises. -/
def searchFailTd : TidalEnv :=
  { emptyTd with searchTracks := fun _ => none }

lemma search_tidal_track_search_fail (td : TidalEnv) (t : SpotifyTrack)
    (S : Finset Nat) (h : td.searchTracks (track_query t) = none) :
    search_tidal_track td t S
      = ⟨false, (t.artistNames.headD "") ++ " - " ++ t.name, 0, S⟩ := by
  have hc : trackCandidate td t = none := by
    unfold trackCandidate
    rw [h]
  rw [search_tidal_track_eq, hc]

lemma albumItem_search_fail (td : TidalEnv) (a : SpotifyAlbum) (S : Finset Nat)
    (h : td.searchAlbums (simple a.name ++ " " ++ simple (a.artistNames.headD ""))
      = none) :
    albumItem td a S = ⟨S, 0, [(a.artistNames.headD "") ++ " - " ++ a.name]⟩ := by
  have hc : albumCandidate td a = none := by
    unfold albumCandidate
    rw [h]
  rw [albumItem_eq, hc]

lemma artistItem_search_fail (td : TidalEnv) (a : SpotifyArtist) (S : Finset Nat)
    (h : td.searchArtists (simple a.name) = none) :
    artistItem td a S = ⟨S, 0, [a.name]⟩ := by
  have hc : artistCandidate td a = none := by
    unfold artistCandidate
    rw [h]
  rw [artistItem_eq, hc]

lemma search_tidal_track_add_fail (td : TidalEnv) (t : SpotifyTrack)
    (S : Finset Nat) (c : TidalTrack) (hc : trackCandidate td t = some c)
    (hmem : c.id ∉ S) (hadd : td.addTrackOk c.id = false) :
    search_tidal_track td t S = ⟨true, "", 0, S⟩ := by
  rw [search_tidal_track_eq, hc]
  simp [hmem, hadd]

/-- C3 counterexample: the source track and the candidate share the ISRC
`"ISRC1"` — the specification's match predicate accepts the pair — but the
code's search classifies the track not-found, because `search_tidal_track`
compares names only and never consults the external identifier. -/
theorem c3_spec_match_code_mismatch :
    specTrackMatch isrcTrack isrcCand = true ∧
      isrcTd.searchTracks (track_query isrcTrack) = some [isrcCand] ∧
      (search_tidal_track isrcTd isrcTrack ∅).found = false ∧
      (search_tidal_track isrcTd isrcTrack ∅).notFoundStr = "A - Foo" := by
  decide

/-- C3 (amended): the identity match performed by `search_tidal_track` is
exact equality of `normalize(simple(lowercase(name)))` and nothing else:
the track is found exactly when one of the first five candidates matches
by name key, whatever the external identifiers are. -/
theorem c3_match_is_name_key_only (td : TidalEnv) (t : SpotifyTrack)
    (S : Finset Nat) (rs : List TidalTrack)
    (h : td.searchTracks (track_query t) = some rs) :
    (search_tidal_track td t S).found
      = (rs.take 5).any (fun c => trackKey c.name == trackKey t.name) := by
  rw [search_tidal_track_eq]
  unfold trackCandidate
  rw [h]
  dsimp only
  cases hf : (rs.take 5).find? (fun c => trackKey c.name == trackKey t.name) with
  | none =>
    have hfalse : (rs.take 5).any (fun c => trackKey c.name == trackKey t.name)
        = false := by
      rw [List.any_eq_false]
      intro x hx
      simpa using List.find?_eq_none.mp hf x hx
    rw [hfalse]
  | some c =>
    have hpred : trackKey c.name == trackKey t.name := by
      simpa using List.find?_some hf
    have hany : (rs.take 5).any (fun x => trackKey x.name == trackKey t.name)
        = true :=
      List.any_eq_true.mpr ⟨c, List.mem_of_find?_eq_some hf, hpred⟩
    rw [hany]
    dsimp only
    split_ifs <;> rfl

theorem c3_match_is_name_key_only_witness :
    isrcTd.searchTracks (track_query isrcTrack) = some [isrcCand] ∧
      (search_tidal_track isrcTd isrcTrack ∅).found
        = ([isrcCand].take 5).any
            (fun c => trackKey c.name == trackKey isrcTrack.name) :=
  ⟨rfl, c3_match_is_name_key_only isrcTd isrcTrack ∅ [isrcCand] rfl⟩

/-- C4: when the first matching candidate is not yet indexed, a failing
add still yields a matched item (empty not-found string, zero adds, index
unchanged), while a successful add records the identifier and counts
exactly one — for tracks, albums and artists. -/
theorem c4_matched_add_semantics :
    (∀ (td : TidalEnv) (t : SpotifyTrack) (S : Finset Nat) (c : TidalTrack),
      trackCandidate td t = some c → c.id ∉ S →
      (td.addTrackOk c.id = false →
        search_tidal_track td t S = ⟨true, "", 0, S⟩) ∧
      (td.addTrackOk c.id = true →
        search_tidal_track td t S = ⟨true, "", 1, insert c.id S⟩)) ∧
    (∀ (td : TidalEnv) (a : SpotifyAlbum) (S : Finset Nat) (c : TidalAlbum),
      albumCandidate td a = some c → c.id ∉ S →
      (td.addAlbumOk c.id = false → albumItem td a S = ⟨S, 0, []⟩) ∧
      (td.addAlbumOk c.id = true → albumItem td a S = ⟨insert c.id S, 1, []⟩)) ∧
    (∀ (td : TidalEnv) (a : SpotifyArtist) (S : Finset Nat) (c : TidalArtist),
      artistCandidate td a = some c → c.id ∉ S →
      (td.addArtistOk c.id = false → artistItem td a S = ⟨S, 0, []⟩) ∧
      (td.addArtistOk c.id = true →
        artistItem td a S = ⟨insert c.id S, 1, []⟩)) := by
  refine ⟨?_, ?_, ?_⟩
  · intro td t S c hc hmem
    refine ⟨fun hadd => ?_, fun hadd => ?_⟩ <;>
      (rw [search_tidal_track_eq, hc]; simp [hmem, hadd])
  · intro td a S c hc hmem
    refine ⟨fun hadd => ?_, fun hadd => ?_⟩ <;>
      (rw [albumItem_eq, hc]; simp [hmem, hadd])
  · intro td a S c hc hmem
    refine ⟨fun hadd => ?_, fun hadd => ?_⟩ <;>
      (rw [artistItem_eq, hc]; simp [hmem, hadd])

theorem c4_matched_add_semantics_witness :
    (trackCandidate addFailTd trackA = some ⟨5, "song a", none⟩ ∧
      (5 : Nat) ∉ (∅ : Finset Nat) ∧ addFailTd.addTrackOk 5 = false) ∧
      search_tidal_track addFailTd trackA ∅ = ⟨true, "", 0, ∅⟩ := by
  refine ⟨⟨by decide, by decide, rfl⟩, ?_⟩
  exact (c4_matched_add_semantics.1 addFailTd trackA ∅ ⟨5, "song a", none⟩
    (by decide) (by decide)).1 rfl

/-- C5 counterexample: the matched candidate's add fails on every attempt
(an add exception is raised and caught), yet the item is classified found
with an empty not-found string, and nothing is appended to the not-found
list — the claim's "any exception ... classified not-found" is false for
add failures. -/
theorem c5_add_failure_not_notfound :
    trackCandidate addFailTd trackA = some ⟨5, "song a", none⟩ ∧
      addFailTd.addTrackOk 5 = false ∧
      (search_tidal_track addFailTd trackA ∅).found = true ∧
      (search_tidal_track addFailTd trackA ∅).notFoundStr = "" ∧
      (processBatch addFailTd [trackA] ∅).nf = [] := by
  decide

/-- C5 (amended): a search exception marks the item not-found and the
collection continues with the remaining items unaffected; an add exception
is caught and leaves the item matched; the album and artist loops mark an
item not-found on a search exception the same way.  No per-item exception
escapes the item. -/
theorem c5_item_failures_semantics :
    (∀ (td : TidalEnv) (t : SpotifyTrack) (S : Finset Nat),
      td.searchTracks (track_query t) = none →
      search_tidal_track td t S
        = ⟨false, (t.artistNames.headD "") ++ " - " ++ t.name, 0, S⟩) ∧
    (∀ (td : TidalEnv) (t : SpotifyTrack) (ts : List SpotifyTrack)
        (S : Finset Nat),
      td.searchTracks (track_query t) = none →
      (processBatch td (t :: ts) S).nf
          = ((t.artistNames.headD "") ++ " - " ++ t.name)
              :: (processBatch td ts S).nf ∧
        (processBatch td (t :: ts) S).addCount
          = (processBatch td ts S).addCount ∧
        (processBatch td (t :: ts) S).ids = (processBatch td ts S).ids) ∧
    (∀ (td : TidalEnv) (t : SpotifyTrack) (S : Finset Nat) (c : TidalTrack),
      trackCandidate td t = some c → c.id ∉ S → td.addTrackOk c.id = false →
      search_tidal_track td t S = ⟨true, "", 0, S⟩) ∧
    (∀ (td : TidalEnv) (a : SpotifyAlbum) (S : Finset Nat),
      td.searchAlbums (simple a.name ++ " " ++ simple (a.artistNames.headD ""))
          = none →
      albumItem td a S = ⟨S, 0, [(a.artistNames.headD "") ++ " - " ++ a.name]⟩) ∧
    (∀ (td : TidalEnv) (a : SpotifyArtist) (S : Finset Nat),
      td.searchArtists (simple a.name) = none →
      artistItem td a S = ⟨S, 0, [a.name]⟩) := by
  refine ⟨search_tidal_track_search_fail, ?_, search_tidal_track_add_fail,
    albumItem_search_fail, artistItem_search_fail⟩
  intro td t ts S h
  have hr := search_tidal_track_search_fail td t S h
  refine ⟨?_, ?_, ?_⟩ <;> simp [processBatch, hr, sep_string_ne_empty]

theorem c5_item_failures_semantics_witness :
    searchFailTd.searchTracks (track_query trackA) = none ∧
      search_tidal_track searchFailTd trackA ∅
        = ⟨false, "Artist X - Song A", 0, ∅⟩ := by
  refine ⟨rfl, ?_⟩
  have h := c5_item_failures_semantics.1 searchFailTd trackA ∅ rfl
  rw [h]
  decide

/-- Consumes the fixed collection order up to and including task `t`;
`none` when `t` is not among the remaining tasks. -/
def taskAllowed (t : String) : List String → Option (List String)
  | [] => none
  | a :: rest => if a == t then some rest else taskAllowed t rest

/-- Event-stream well-formedness checker: outside a block (first argument
`none`) the stream must offer `start t` for a task still allowed, or the
single final `complete`; inside block `t` only progress events of `t` may
occur until a terminal `done t`/`error t` closes the block, or a final
`auth_expired` ends the stream.  This encodes: one `start` and one terminal
per attempted collection, no interleaving, fixed task order. -/
def checkEvents : Option String → List Event → List String → Bool
  | none, [Event.complete _], _ => true
  | none, Event.start t _ :: rest, allowed =>
    (match taskAllowed t allowed with
     | some rem => checkEvents (some t) rest rem
     | none => false)
  | some t, Event.progress t2 _ _ :: rest, allowed =>
    t2 == t && checkEvents (some t) rest allowed
  | some t, Event.done t2 _ :: rest, allowed =>
    t2 == t && checkEvents none rest allowed
  | some t, Event.error t2 _ :: rest, allowed =>
    t2 == t && checkEvents none rest allowed
  | some _, [Event.authExpired _], _ => true
  | _, _, _ => false

lemma loadPages_events_progress (task label : String) (pages : List (List Nat)) :
    ∀ S, ∀ e ∈ (loadPages task label pages S).2, isProgressFor task e = true := by
  induction pages with
  | nil => simp [loadPages]
  | cons p rest ih =>
    intro S e he
    by_cases hp : p.isEmpty
    · simp [loadPages, hp] at he
    · by_cases hl : p.length < 100
      · simp [loadPages, hp, hl] at he
      · simp only [loadPages, hp, hl] at he
        simp only [if_neg, Bool.false_eq_true, if_false] at he
        rcases List.mem_cons.mp he with h | h
        · subst h
          simp [isProgressFor]
        · exact ih _ e h

lemma favChunksLoop_events_progress (td : TidalEnv) (total : Nat)
    (chs : List (List SpotifyTrack)) :
    ∀ S p a nf, ∀ e ∈ (favChunksLoop td total chs S p a nf).events,
      isProgressFor "favorites" e = true := by
  induction chs with
  | nil => simp [favChunksLoop]
  | cons ch rest ih =>
    intro S p a nf e he
    have : (favChunksLoop td total (ch :: rest) S p a nf).events
        = Event.progress "favorites" (20 + (p + ch.length) * 75 / max total 1)
            ("Processing " ++ toString (p + ch.length) ++ "/" ++ toString total)
          :: (favChunksLoop td total rest (processBatch td ch S).ids (p + ch.length)
              (a + (processBatch td ch S).addCount)
              (nf ++ (processBatch td ch S).nf)).events := rfl
    rw [this] at he
    rcases List.mem_cons.mp he with h | h
    · subst h
      simp [isProgressFor]
    · exact ih _ _ _ _ e h

lemma albumsLoop_events_progress (td : TidalEnv) (total : Nat)
    (its : List SpotifyAlbum) :
    ∀ S p a nf, ∀ e ∈ (albumsLoop td total its S p a nf).events,
      isProgressFor "albums" e = true := by
  induction its with
  | nil => simp [albumsLoop]
  | cons alb rest ih =>
    intro S p a nf e he
    have : (albumsLoop td total (alb :: rest) S p a nf).events
        = Event.progress "albums" (20 + (p + 1) * 80 / max total 1)
            (toString (p + 1) ++ "/" ++ toString total ++ ": "
              ++ String.mk (alb.name.data.take 25))
          :: (albumsLoop td total rest (albumItem td alb S).ids (p + 1)
              (a + (albumItem td alb S).addCount)
              (nf ++ (albumItem td alb S).nf)).events := rfl
    rw [this] at he
    rcases List.mem_cons.mp he with h | h
    · subst h
      simp [isProgressFor]
    · exact ih _ _ _ _ e h

lemma artistsLoop_events_progress (td : TidalEnv) (total : Nat)
    (its : List SpotifyArtist) :
    ∀ S p a nf, ∀ e ∈ (artistsLoop td total its S p a nf).events,
      isProgressFor "artists" e = true := by
  induction its with
  | nil => simp [artistsLoop]
  | cons ar rest ih =>
    intro S p a nf e he
    have : (artistsLoop td total (ar :: rest) S p a nf).events
        = Event.progress "artists" (20 + (p + 1) * 80 / max total 1)
            (toString (p + 1) ++ "/" ++ toString total ++ ": "
              ++ String.mk (ar.name.data.take 25))
          :: (artistsLoop td total rest (artistItem td ar S).ids (p + 1)
              (a + (artistItem td ar S).addCount)
              (nf ++ (artistItem td ar S).nf)).events := rfl
    rw [this] at he
    rcases List.mem_cons.mp he with h | h
    · subst h
      simp [isProgressFor]
    · exact ih _ _ _ _ e h

lemma playlistsBody_events_progress (sp : SpotifyEnv) (td : TidalEnv) :
    ∀ e ∈ (playlistsBody sp td).1, isProgressFor "playlists" e = true := by
  unfold playlistsBody
  cases sp.playlistsFetch with
  | error e => simp
  | ok names =>
    cases td.allPlaylists with
    | error e => simp
    | ok ns =>
      intro e he
      simp only [List.mem_map] at he
      obtain ⟨pr, _, hpr⟩ := he
      rw [← hpr]
      simp [isProgressFor]

lemma favoritesBody_events_progress (sp : SpotifyEnv) (td : TidalEnv) :
    ∀ e ∈ (favoritesBody sp td).1, isProgressFor "favorites" e = true := by
  unfold favoritesBody
  cases sp.tracksCount with
  | error e => simp [isProgressFor]
  | ok total =>
    cases herr : sp.savedTracks.err with
    | none =>
      intro e he
      simp only [List.mem_cons, List.mem_append] at he
      rcases he with h | h | h | h
      · subst h; simp [isProgressFor]
      · subst h; simp [isProgressFor]
      · subst h; simp [isProgressFor]
      · rcases h with h | h
        · exact loadPages_events_progress _ _ _ _ e h
        · exact favChunksLoop_events_progress td total _ _ _ _ _ e h
    | some err =>
      intro e he
      simp only [List.mem_cons, List.mem_append] at he
      rcases he with h | h | h | h
      · subst h; simp [isProgressFor]
      · subst h; simp [isProgressFor]
      · subst h; simp [isProgressFor]
      · rcases h with h | h
        · exact loadPages_events_progress _ _ _ _ e h
        · exact favChunksLoop_events_progress td total _ _ _ _ _ e h

lemma albumsBody_events_progress (sp : SpotifyEnv) (td : TidalEnv) :
    ∀ e ∈ (albumsBody sp td).1, isProgressFor "albums" e = true := by
  unfold albumsBody
  cases sp.albumsCount with
  | error e => simp [isProgressFor]
  | ok total =>
    cases herr : sp.savedAlbums.err with
    | none =>
      intro e he
      simp only [List.mem_cons, List.mem_append] at he
      rcases he with h | h | h | h
      · subst h; simp [isProgressFor]
      · subst h; simp [isProgressFor]
      · subst h; simp [isProgressFor]
      · rcases h with h | h
        · exact loadPages_events_progress _ _ _ _ e h
        · exact albumsLoop_events_progress td total _ _ _ _ _ e h
    | some err =>
      intro e he
      simp only [List.mem_cons, List.mem_append] at he
      rcases he with h | h | h | h
      · subst h; simp [isProgressFor]
      · subst h; simp [isProgressFor]
      · subst h; simp [isProgressFor]
      · rcases h with h | h
        · exact loadPages_events_progress _ _ _ _ e h
        · exact albumsLoop_events_progress td total _ _ _ _ _ e h

lemma artistsBody_events_progress (sp : SpotifyEnv) (td : TidalEnv) :
    ∀ e ∈ (artistsBody sp td).1, isProgressFor "artists" e = true := by
  unfold artistsBody
  cases sp.artistsCount with
  | error e => simp [isProgressFor]
  | ok total =>
    cases herr : sp.followedArtists.err with
    | none =>
      intro e he
      simp only [List.mem_cons, List.mem_append] at he
      rcases he with h | h | h | h
      · subst h; simp [isProgressFor]
      · subst h; simp [isProgressFor]
      · subst h; simp [isProgressFor]
      · rcases h with h | h
        · exact loadPages_events_progress _ _ _ _ e h
        · exact artistsLoop_events_progress td total _ _ _ _ _ e h
    | some err =>
      intro e he
      simp only [List.mem_cons, List.mem_append] at he
      rcases he with h | h | h | h
      · subst h; simp [isProgressFor]
      · subst h; simp [isProgressFor]
      · subst h; simp [isProgressFor]
      · rcases h with h | h
        · exact loadPages_events_progress _ _ _ _ e h
        · exact artistsLoop_events_progress td total _ _ _ _ _ e h

/-- Inside a block, a run of progress events of the block's task is
transparent to the checker. -/
lemma checkEvents_progress_run (t : String) (mids : List Event)
    (hm : ∀ e ∈ mids, isProgressFor t e = true) (rest : List Event)
    (allowed : List String) :
    checkEvents (some t) (mids ++ rest) allowed
      = checkEvents (some t) rest allowed := by
  induction mids with
  | nil => rfl
  | cons e mids ih =>
    have he := hm e (List.mem_cons_self e mids)
    have hm2 : ∀ x ∈ mids, isProgressFor t x = true :=
      fun x hx => hm x (List.mem_cons_of_mem e hx)
    cases e with
    | progress t2 pct item =>
      have ht2 : (t2 == t) = true := by simpa [isProgressFor] using he
      simp only [List.cons_append, checkEvents, ht2, Bool.true_and]
      exact ih hm2
    | start a b => simp [isProgressFor] at he
    | done a b => simp [isProgressFor] at he
    | error a b => simp [isProgressFor] at he
    | authExpired a => simp [isProgressFor] at he
    | complete a => simp [isProgressFor] at he

/-- A non-aborting block is consumed cleanly by the checker, moving the
allowed-task state past `t`. -/
lemma checkEvents_buildBlock_ok (t label : String) (mids : List Event)
    (hm : ∀ e ∈ mids, isProgressFor t e = true)
    (out : Except Err CollResult) (hab : blockAborts out = false)
    (rest : List Event) (allowed rem : List String)
    (ha : taskAllowed t allowed = some rem) :
    checkEvents none (buildBlock t label mids out ++ rest) allowed
      = checkEvents none rest rem := by
  cases out with
  | ok res =>
    have hsh : buildBlock t label mids (Except.ok res) ++ rest
        = Event.start t label :: (mids ++ (Event.done t res :: rest)) := by
      simp [buildBlock]
    rw [hsh]
    simp only [checkEvents, ha]
    rw [checkEvents_progress_run t mids hm]
    simp [checkEvents]
  | error e =>
    have hna : is_auth_error e = false := by simpa [blockAborts] using hab
    have hsh : buildBlock t label mids (Except.error e) ++ rest
        = Event.start t label :: (mids ++ (Event.error t e.message :: rest)) := by
      simp [buildBlock, hna]
    rw [hsh]
    simp only [checkEvents, ha]
    rw [checkEvents_progress_run t mids hm]
    simp [checkEvents]

/-- An aborting block (auth expiry) is accepted by the checker as the end
of the stream. -/
lemma checkEvents_buildBlock_abort (t label : String) (mids : List Event)
    (hm : ∀ e ∈ mids, isProgressFor t e = true)
    (out : Except Err CollResult) (hab : blockAborts out = true)
    (allowed rem : List String) (ha : taskAllowed t allowed = some rem) :
    checkEvents none (buildBlock t label mids out) allowed = true := by
  cases out with
  | ok res => simp [blockAborts] at hab
  | error e =>
    have hau : is_auth_error e = true := by simpa [blockAborts] using hab
    have hsh : buildBlock t label mids (Except.error e)
        = Event.start t label :: (mids ++ [Event.authExpired "spotify"]) := by
      simp [buildBlock, hau]
    rw [hsh]
    simp only [checkEvents, ha]
    rw [checkEvents_progress_run t mids hm]
    rfl

/-- The sequence of collection blocks a run produces, together with the
allowed-task order: a step is skipped, or is a block of a task still
allowed whose successor steps fit the remaining order. -/
inductive StepsFit : List (List Event × Bool) → List String → Prop
  | nil : ∀ allowed, StepsFit [] allowed
  | skip : ∀ rest allowed, StepsFit rest allowed →
      StepsFit (([], false) :: rest) allowed
  | block : ∀ (t label : String) (mids : List Event)
      (out : Except Err CollResult) rest allowed rem,
      taskAllowed t allowed = some rem →
      (∀ e ∈ mids, isProgressFor t e = true) →
      (blockAborts out = false → StepsFit rest rem) →
      StepsFit ((buildBlock t label mids out, blockAborts out) :: rest) allowed

lemma checkEvents_assemble (r : RunResult) :
    ∀ (bs : List (List Event × Bool)) (allowed : List String),
      StepsFit bs allowed →
      checkEvents none (assemble bs [Event.complete r]) allowed = true := by
  intro bs allowed h
  induction h with
  | nil allowed => rfl
  | skip rest allowed hrest ih =>
    simpa [assemble] using ih
  | block t label mids out rest allowed rem ha hm hrest ih =>
    cases hab : blockAborts out with
    | true =>
      have has : assemble ((buildBlock t label mids out, true) :: rest)
          [Event.complete r] = buildBlock t label mids out := by
        simp [assemble]
      rw [has]
      exact checkEvents_buildBlock_abort t label mids hm out hab allowed rem ha
    | false =>
      have has : assemble ((buildBlock t label mids out, false) :: rest)
          [Event.complete r]
          = buildBlock t label mids out ++ assemble rest [Event.complete r] := by
        simp [assemble]
      rw [has, checkEvents_buildBlock_ok t label mids hm out hab _ allowed rem ha]
      exact ih hab

lemma fit_playlists (sp : SpotifyEnv) (td : TidalEnv) (r : RunResult)
    (flag : Bool) (rest : List (List Event × Bool)) (allowed rem : List String)
    (ha : taskAllowed "playlists" allowed = some rem)
    (hskip : StepsFit rest allowed) (hcons : StepsFit rest rem) :
    StepsFit (((if flag then playlistsStep sp td r else skipStep r).1,
               (if flag then playlistsStep sp td r else skipStep r).2.2) :: rest)
      allowed := by
  cases flag with
  | false => exact StepsFit.skip rest allowed hskip
  | true =>
    exact StepsFit.block "playlists" "Playlists" (playlistsBody sp td).1
      ((playlistsBody sp td).2.map (fun pr => CollResult.playlistRes pr.1 pr.2))
      rest allowed rem ha (playlistsBody_events_progress sp td) (fun _ => hcons)

lemma fit_favorites (sp : SpotifyEnv) (td : TidalEnv) (r : RunResult)
    (flag : Bool) (rest : List (List Event × Bool)) (allowed rem : List String)
    (ha : taskAllowed "favorites" allowed = some rem)
    (hskip : StepsFit rest allowed) (hcons : StepsFit rest rem) :
    StepsFit (((if flag then favoritesStep sp td r else skipStep r).1,
               (if flag then favoritesStep sp td r else skipStep r).2.2) :: rest)
      allowed := by
  cases flag with
  | false => exact StepsFit.skip rest allowed hskip
  | true =>
    exact StepsFit.block "favorites" "Liked Songs" (favoritesBody sp td).1
      (favoritesBody sp td).2 rest allowed rem ha
      (favoritesBody_events_progress sp td) (fun _ => hcons)

lemma fit_albums (sp : SpotifyEnv) (td : TidalEnv) (r : RunResult)
    (flag : Bool) (rest : List (List Event × Bool)) (allowed rem : List String)
    (ha : taskAllowed "albums" allowed = some rem)
    (hskip : StepsFit rest allowed) (hcons : StepsFit rest rem) :
    StepsFit (((if flag then albumsStep sp td r else skipStep r).1,
               (if flag then albumsStep sp td r else skipStep r).2.2) :: rest)
      allowed := by
  cases flag with
  | false => exact StepsFit.skip rest allowed hskip
  | true =>
    exact StepsFit.block "albums" "Albums" (albumsBody sp td).1
      (albumsBody sp td).2 rest allowed rem ha
      (albumsBody_events_progress sp td) (fun _ => hcons)

lemma fit_artists (sp : SpotifyEnv) (td : TidalEnv) (r : RunResult)
    (flag : Bool) (rest : List (List Event × Bool)) (allowed rem : List String)
    (ha : taskAllowed "artists" allowed = some rem)
    (hskip : StepsFit rest allowed) (hcons : StepsFit rest rem) :
    StepsFit (((if flag then artistsStep sp td r else skipStep r).1,
               (if flag then artistsStep sp td r else skipStep r).2.2) :: rest)
      allowed := by
  cases flag with
  | false => exact StepsFit.skip rest allowed hskip
  | true =>
    exact StepsFit.block "artists" "Artists" (artistsBody sp td).1
      (artistsBody sp td).2 rest allowed rem ha
      (artistsBody_events_progress sp td) (fun _ => hcons)

/-- C9 (amended): for every run, the event stream passes the bracketing
checker: collections appear in the fixed order playlists, favorites,
albums, artists; each attempted collection contributes exactly one `start`
followed only by its own progress events and exactly one closing terminal
event — `done` or `error`, or the run-ending `auth_expired` when an auth
failure aborts the run — and events of different collections never
interleave; a non-aborted run ends with the single `complete`. -/
theorem c9_fixed_order_bracketed (sp : SpotifyEnv) (td : TidalEnv)
    (p alb art fav : Bool) :
    checkEvents none (run_sync_streaming sp td p alb art fav)
      ["playlists", "favorites", "albums", "artists"] = true := by
  unfold run_sync_streaming
  apply checkEvents_assemble
  have g4 : ∀ al : List String, taskAllowed "artists" al = some [] →
      StepsFit [((step4 sp td p fav alb art).1,
                 (step4 sp td p fav alb art).2.2)] al :=
    fun al ha =>
      fit_artists sp td (step3 sp td p fav alb).2.1 art [] al [] ha
        (StepsFit.nil al) (StepsFit.nil [])
  have g3 : ∀ al : List String, taskAllowed "albums" al = some ["artists"] →
      taskAllowed "artists" al = some [] →
      StepsFit [((step3 sp td p fav alb).1, (step3 sp td p fav alb).2.2),
                ((step4 sp td p fav alb art).1,
                 (step4 sp td p fav alb art).2.2)] al :=
    fun al h1 h2 =>
      fit_albums sp td (step2 sp td p fav).2.1 alb _ al ["artists"] h1
        (g4 al h2) (g4 ["artists"] rfl)
  have g2 : ∀ al : List String,
      taskAllowed "favorites" al = some ["albums", "artists"] →
      taskAllowed "albums" al = some ["artists"] →
      taskAllowed "artists" al = some [] →
      StepsFit [((step2 sp td p fav).1, (step2 sp td p fav).2.2),
                ((step3 sp td p fav alb).1, (step3 sp td p fav alb).2.2),
                ((step4 sp td p fav alb art).1,
                 (step4 sp td p fav alb art).2.2)] al :=
    fun al h1 h2 h3 =>
      fit_favorites sp td (step1 sp td p).2.1 fav _ al ["albums", "artists"] h1
        (g3 al h2 h3) (g3 ["albums", "artists"] rfl rfl)
  exact fit_playlists sp td {} p _
    ["playlists", "favorites", "albums", "artists"]
    ["favorites", "albums", "artists"] rfl
    (g2 _ rfl rfl rfl) (g2 _ rfl rfl rfl)

/-- A list of events that contains neither an `auth_expired` nor a
`complete` event. -/
def noAuthNoComplete (l : List Event) : Prop :=
  (∀ s, Event.authExpired s ∉ l) ∧ (∀ r, Event.complete r ∉ l)

lemma noAuthNoComplete_nil : noAuthNoComplete [] := by
  constructor <;> simp

lemma noAuthNoComplete_append {l1 l2 : List Event}
    (h1 : noAuthNoComplete l1) (h2 : noAuthNoComplete l2) :
    noAuthNoComplete (l1 ++ l2) := by
  constructor
  · intro s hs
    rcases List.mem_append.mp hs with h | h
    · exact h1.1 s h
    · exact h2.1 s h
  · intro r hr
    rcases List.mem_append.mp hr with h | h
    · exact h1.2 r h
    · exact h2.2 r h

lemma noAuthNoComplete_progress {t : String} {mids : List Event}
    (hm : ∀ e ∈ mids, isProgressFor t e = true) : noAuthNoComplete mids := by
  constructor
  · intro s hs
    have := hm _ hs
    simp [isProgressFor] at this
  · intro r hr
    have := hm _ hr
    simp [isProgressFor] at this

/-- The two possible shapes of a collection block: a cleanly closed block,
or a truncated block ending in the run-ending `auth_expired`. -/
lemma buildBlock_clean (t label : String) (mids : List Event)
    (hm : ∀ e ∈ mids, isProgressFor t e = true) (out : Except Err CollResult) :
    (blockAborts out = false → noAuthNoComplete (buildBlock t label mids out)) ∧
    (blockAborts out = true →
      ∃ pre, buildBlock t label mids out = pre ++ [Event.authExpired "spotify"]
        ∧ noAuthNoComplete pre) := by
  have hmids := noAuthNoComplete_progress hm
  cases out with
  | ok res =>
    refine ⟨fun _ => ?_, fun hab => by simp [blockAborts] at hab⟩
    have : buildBlock t label mids (Except.ok res)
        = [Event.start t label] ++ mids ++ [Event.done t res] := by
      simp [buildBlock]
    rw [this]
    refine noAuthNoComplete_append (noAuthNoComplete_append ?_ hmids) ?_ <;>
      (constructor <;> simp)
  | error e =>
    constructor
    · intro hab
      have hna : is_auth_error e = false := by simpa [blockAborts] using hab
      have : buildBlock t label mids (Except.error e)
          = [Event.start t label] ++ mids ++ [Event.error t e.message] := by
        simp [buildBlock, hna]
      rw [this]
      refine noAuthNoComplete_append (noAuthNoComplete_append ?_ hmids) ?_ <;>
        (constructor <;> simp)
    · intro hab
      have hau : is_auth_error e = true := by simpa [blockAborts] using hab
      refine ⟨Event.start t label :: mids, ?_, ?_⟩
      · simp [buildBlock, hau]
      · have : Event.start t label :: mids = [Event.start t label] ++ mids := rfl
        rw [this]
        refine noAuthNoComplete_append ?_ hmids
        constructor <;> simp

/-- Every step entry of a run is clean in the above sense. -/
def CleanSteps (bs : List (List Event × Bool)) : Prop :=
  ∀ b ∈ bs, (b.2 = false → noAuthNoComplete b.1) ∧
    (b.2 = true →
      ∃ pre, b.1 = pre ++ [Event.authExpired "spotify"] ∧ noAuthNoComplete pre)

/-- Assembled clean steps either deliver the final event after a clean
prefix, or end at the first aborting block's `auth_expired`. -/
lemma assemble_shape (r : RunResult) :
    ∀ bs : List (List Event × Bool), CleanSteps bs →
      (∃ pre, assemble bs [Event.complete r] = pre ++ [Event.complete r]
          ∧ noAuthNoComplete pre)
      ∨ (∃ pre, assemble bs [Event.complete r]
            = pre ++ [Event.authExpired "spotify"] ∧ noAuthNoComplete pre) := by
  intro bs
  induction bs with
  | nil => exact fun _ => Or.inl ⟨[], rfl, noAuthNoComplete_nil⟩
  | cons b rest ih =>
    intro h
    have hb := h b (List.mem_cons_self b rest)
    have hrest : CleanSteps rest := fun x hx => h x (List.mem_cons_of_mem b hx)
    cases hb2 : b.2 with
    | true =>
      obtain ⟨pre, hpre, hclean⟩ := hb.2 hb2
      refine Or.inr ⟨pre, ?_, hclean⟩
      have : assemble (b :: rest) [Event.complete r] = b.1 := by
        cases b with
        | mk evs ab =>
          simp only at hb2
          simp [assemble, hb2]
      rw [this, hpre]
    | false =>
      have hclean1 := hb.1 hb2
      have : assemble (b :: rest) [Event.complete r]
          = b.1 ++ assemble rest [Event.complete r] := by
        cases b with
        | mk evs ab =>
          simp only at hb2
          simp [assemble, hb2]
      rw [this]
      rcases ih hrest with ⟨pre, hpre, hclean⟩ | ⟨pre, hpre, hclean⟩
      · exact Or.inl ⟨b.1 ++ pre, by rw [hpre, List.append_assoc],
          noAuthNoComplete_append hclean1 hclean⟩
      · exact Or.inr ⟨b.1 ++ pre, by rw [hpre, List.append_assoc],
          noAuthNoComplete_append hclean1 hclean⟩

/-- The fundamental shape of every run's event stream: a clean prefix
closed by exactly one `complete`, or a clean prefix closed by exactly one
`auth_expired "spotify"`. -/
lemma run_shape (sp : SpotifyEnv) (td : TidalEnv) (p alb art fav : Bool) :
    (∃ pre r, run_sync_streaming sp td p alb art fav
        = pre ++ [Event.complete r] ∧ noAuthNoComplete pre)
    ∨ (∃ pre, run_sync_streaming sp td p alb art fav
        = pre ++ [Event.authExpired "spotify"] ∧ noAuthNoComplete pre) := by
  have hclean : CleanSteps
      [((step1 sp td p).1, (step1 sp td p).2.2),
       ((step2 sp td p fav).1, (step2 sp td p fav).2.2),
       ((step3 sp td p fav alb).1, (step3 sp td p fav alb).2.2),
       ((step4 sp td p fav alb art).1, (step4 sp td p fav alb art).2.2)] := by
    intro b hb
    simp only [List.mem_cons, List.not_mem_nil, or_false] at hb
    rcases hb with hb | hb | hb | hb
    · subst hb
      cases p with
      | false =>
        exact ⟨fun _ => noAuthNoComplete_nil,
          fun hab => by simp [step1, skipStep] at hab⟩
      | true =>
        exact buildBlock_clean "playlists" "Playlists" (playlistsBody sp td).1
          (playlistsBody_events_progress sp td)
          ((playlistsBody sp td).2.map
            (fun pr => CollResult.playlistRes pr.1 pr.2))
    · subst hb
      cases fav with
      | false =>
        exact ⟨fun _ => noAuthNoComplete_nil,
          fun hab => by simp [step2, skipStep] at hab⟩
      | true =>
        exact buildBlock_clean "favorites" "Liked Songs" (favoritesBody sp td).1
          (favoritesBody_events_progress sp td) (favoritesBody sp td).2
    · subst hb
      cases alb with
      | false =>
        exact ⟨fun _ => noAuthNoComplete_nil,
          fun hab => by simp [step3, skipStep] at hab⟩
      | true =>
        exact buildBlock_clean "albums" "Albums" (albumsBody sp td).1
          (albumsBody_events_progress sp td) (albumsBody sp td).2
    · subst hb
      cases art with
      | false =>
        exact ⟨fun _ => noAuthNoComplete_nil,
          fun hab => by simp [step4, skipStep] at hab⟩
      | true =>
        exact buildBlock_clean "artists" "Artists" (artistsBody sp td).1
          (artistsBody_events_progress sp td) (artistsBody sp td).2
  unfold run_sync_streaming
  rcases assemble_shape
      (finalizeResult (step4 sp td p fav alb art).2.1) _ hclean with
    ⟨pre, h1, h2⟩ | ⟨pre, h1, h2⟩
  · exact Or.inl
      ⟨pre, finalizeResult (step4 sp td p fav alb art).2.1, h1, h2⟩
  · exact Or.inr ⟨pre, h1, h2⟩

lemma foldl_keepComplete_no_complete :
    ∀ (l : List Event) (init : RunResult),
      (∀ r, Event.complete r ∉ l) → l.foldl keepComplete init = init := by
  intro l
  induction l with
  | nil => intro init _; rfl
  | cons e rest ih =>
    intro init h
    have hstep : keepComplete init e = init := by
      cases e with
      | complete r => exact absurd (List.mem_cons_self _ _) (h r)
      | start a b => rfl
      | progress a b c => rfl
      | done a b => rfl
      | error a b => rfl
      | authExpired a => rfl
    rw [List.foldl_cons, hstep]
    exact ih init (fun r hr => h r (List.mem_cons_of_mem e hr))

lemma foldl_keepComplete_append_complete (pre : List Event) (r : RunResult)
    (init : RunResult) :
    (pre ++ [Event.complete r]).foldl keepComplete init = r := by
  rw [List.foldl_append]
  rfl

/-- C2: whenever the stream carries an `auth_expired` event it is for the
source service "spotify", it is the last event of the whole run (so no
event of any later collection follows) and the run never reaches
`complete`; and for each collection, an auth-classified exception escaping
its body makes the block terminate with `auth_expired` instead of a
generic `error` event and sets the abort flag that stops the run. -/
theorem c2_auth_failure_aborts_run (sp : SpotifyEnv) (td : TidalEnv)
    (p alb art fav : Bool) :
    (∀ s, Event.authExpired s ∈ run_sync_streaming sp td p alb art fav →
      s = "spotify" ∧
        (∃ pre, run_sync_streaming sp td p alb art fav
            = pre ++ [Event.authExpired "spotify"]) ∧
        (∀ r, Event.complete r ∉ run_sync_streaming sp td p alb art fav)) ∧
    (∀ (e : Err) (r : RunResult),
      (playlistsBody sp td).2 = Except.error e → is_auth_error e = true →
      (playlistsStep sp td r).1
          = Event.start "playlists" "Playlists"
            :: (playlistsBody sp td).1 ++ [Event.authExpired "spotify"] ∧
        (playlistsStep sp td r).2.2 = true) ∧
    (∀ (e : Err) (r : RunResult),
      (favoritesBody sp td).2 = Except.error e → is_auth_error e = true →
      (favoritesStep sp td r).1
          = Event.start "favorites" "Liked Songs"
            :: (favoritesBody sp td).1 ++ [Event.authExpired "spotify"] ∧
        (favoritesStep sp td r).2.2 = true) ∧
    (∀ (e : Err) (r : RunResult),
      (albumsBody sp td).2 = Except.error e → is_auth_error e = true →
      (albumsStep sp td r).1
          = Event.start "albums" "Albums"
            :: (albumsBody sp td).1 ++ [Event.authExpired "spotify"] ∧
        (albumsStep sp td r).2.2 = true) ∧
    (∀ (e : Err) (r : RunResult),
      (artistsBody sp td).2 = Except.error e → is_auth_error e = true →
      (artistsStep sp td r).1
          = Event.start "artists" "Artists"
            :: (artistsBody sp td).1 ++ [Event.authExpired "spotify"] ∧
        (artistsStep sp td r).2.2 = true) := by
  refine ⟨?_, ?_, ?_, ?_, ?_⟩
  · intro s hs
    rcases run_shape sp td p alb art fav with ⟨pre, r, h1, h2⟩ | ⟨pre, h1, h2⟩
    · rw [h1] at hs
      rcases List.mem_append.mp hs with h | h
      · exact absurd h (h2.1 s)
      · simp at h
    · rw [h1] at hs
      rcases List.mem_append.mp hs with h | h
      · exact absurd h (h2.1 s)
      · have heq : Event.authExpired s = Event.authExpired "spotify" := by
          simpa using h
        have hss : s = "spotify" := by
          injection heq
        subst hss
        refine ⟨rfl, ⟨pre, h1⟩, ?_⟩
        intro r hr
        rw [h1] at hr
        rcases List.mem_append.mp hr with h' | h'
        · exact h2.2 r h'
        · simp at h'
  · intro e r he hauth
    constructor
    · show (playlistsStep sp td r).1 = _
      simp [playlistsStep, he, Except.map, buildBlock, hauth]
    · simp [playlistsStep, he, Except.map, blockAborts, hauth]
  · intro e r he hauth
    constructor
    · show (favoritesStep sp td r).1 = _
      simp [favoritesStep, he, buildBlock, hauth]
    · simp [favoritesStep, he, blockAborts, hauth]
  · intro e r he hauth
    constructor
    · show (albumsStep sp td r).1 = _
      simp [albumsStep, he, buildBlock, hauth]
    · simp [albumsStep, he, blockAborts, hauth]
  · intro e r he hauth
    constructor
    · show (artistsStep sp td r).1 = _
      simp [artistsStep, he, buildBlock, hauth]
    · simp [artistsStep, he, blockAborts, hauth]

theorem c2_auth_failure_aborts_run_witness :
    Event.authExpired "spotify"
        ∈ run_sync_streaming authSp emptyTd true false false false ∧
      ("spotify" = "spotify" ∧
        (∃ pre, run_sync_streaming authSp emptyTd true false false false
            = pre ++ [Event.authExpired "spotify"]) ∧
        (∀ r, Event.complete r
            ∉ run_sync_streaming authSp emptyTd true false false false)) :=
  ⟨by decide,
   (c2_auth_failure_aborts_run authSp emptyTd true false false false).1
     "spotify" (by decide)⟩

/-- C8 counterexample: the playlists fetch raises a token-expiry error;
the stream is truncated after `auth_expired`, and the non-streaming caller
receives the empty `RunResult` — a silent empty result with no
re-authentication instruction (the returned record cannot even express
one). -/
theorem c8_auth_truncation_returns_empty :
    run_sync_streaming authSp emptyTd true false false false
        = [Event.start "playlists" "Playlists", Event.authExpired "spotify"] ∧
      run_sync authSp emptyTd true false false false = ({} : RunResult) :=
  ⟨by decide, by decide⟩

/-- C8 (amended): the non-streaming entry point returns the `complete`
payload whenever the stream ends with one; when an authentication error
truncates the run, the stream ends with `auth_expired` instead and
`run_sync` returns the empty result — the re-authentication signal is
visible only to streaming consumers. -/
theorem c8_run_sync_keeps_complete_payload (sp : SpotifyEnv) (td : TidalEnv)
    (p alb art fav : Bool) :
    (∃ pre r, run_sync_streaming sp td p alb art fav
        = pre ++ [Event.complete r] ∧ run_sync sp td p alb art fav = r)
    ∨ ((∃ pre, run_sync_streaming sp td p alb art fav
          = pre ++ [Event.authExpired "spotify"]) ∧
        run_sync sp td p alb art fav = ({} : RunResult)) := by
  rcases run_shape sp td p alb art fav with ⟨pre, r, h1, h2⟩ | ⟨pre, h1, h2⟩
  · refine Or.inl ⟨pre, r, h1, ?_⟩
    unfold run_sync
    rw [h1]
    exact foldl_keepComplete_append_complete pre r {}
  · refine Or.inr ⟨⟨pre, h1⟩, ?_⟩
    unfold run_sync
    rw [h1]
    apply foldl_keepComplete_no_complete
    intro r hr
    rcases List.mem_append.mp hr with h' | h'
    · exact h2.2 r h'
    · simp at h'

/-- C9 counterexample: in a run aborted by an auth failure, the attempted
playlists collection is opened by `start` but closed by the run-ending
`auth_expired` — no `done` or `error` event for it exists anywhere in the
stream, so the claimed "exactly one terminal event (Done or Error)" fails
for this run. -/
theorem c9_auth_block_has_no_done_or_error :
    run_sync_streaming authSp emptyTd true false false false
        = [Event.start "playlists" "Playlists", Event.authExpired "spotify"] ∧
      (∀ e ∈ run_sync_streaming authSp emptyTd true false false false,
        isTerminalFor "playlists" e = false) :=
  ⟨by decide, by decide⟩

/-- C10: with all four selection flags false, the streaming entry point
emits exactly one event — `complete` with a result whose only field is the
not-found report, which states that nothing was missing — and the
non-streaming entry point returns that same result. -/
theorem c10_empty_selection_single_complete (sp : SpotifyEnv) (td : TidalEnv) :
    run_sync_streaming sp td false false false false
        = [Event.complete
            { notFoundReport := some (format_not_found_report {}) }] ∧
      run_sync sp td false false false false
        = { notFoundReport := some (format_not_found_report {}) } ∧
      strContains (format_not_found_report ({} : RunResult))
          "No items were missing" = true :=
  ⟨rfl, rfl, by decide⟩

/-- A percent sequence satisfying the claimed invariant: monotonically
non-decreasing and within [0, 100] (the lower bound is inherent to `Nat`). -/
def GoodPs (ps : List Nat) : Prop :=
  List.Chain' (fun a b => a ≤ b) ps ∧ ∀ q ∈ ps, q ≤ 100

lemma pp_append (t : String) (l1 l2 : List Event) :
    progressPercents t (l1 ++ l2)
      = progressPercents t l1 ++ progressPercents t l2 :=
  List.filterMap_append l1 l2 _

lemma pp_nil (t : String) : progressPercents t [] = [] := rfl

lemma pp_own_cons (t : String) (pct : Nat) (item : String) (l : List Event) :
    progressPercents t (Event.progress t pct item :: l)
      = pct :: progressPercents t l := by
  simp [progressPercents]

lemma pp_empty_of_other {t2 : String} (t : String) (l : List Event)
    (hl : ∀ e ∈ l, isProgressFor t2 e = true) (hne : (t2 == t) = false) :
    progressPercents t l = [] := by
  rw [progressPercents, List.filterMap_eq_nil]
  intro e he
  have h2 := hl e he
  cases e with
  | progress t3 a b =>
    have h3 : t3 = t2 := by
      have := by simpa [isProgressFor] using h2
      exact this
    subst h3
    simp [hne]
  | start a b => rfl
  | done a b => rfl
  | error a b => rfl
  | authExpired a => rfl
  | complete a => rfl

lemma pp_buildBlock (t task label : String) (mids : List Event)
    (out : Except Err CollResult) :
    progressPercents t (buildBlock task label mids out)
      = progressPercents t mids := by
  cases out with
  | ok res =>
    simp [buildBlock, progressPercents, List.filterMap_append]
  | error e =>
    by_cases h : is_auth_error e = true
    · simp [buildBlock, h, progressPercents, List.filterMap_append]
    · simp only [Bool.not_eq_true] at h
      simp [buildBlock, h, progressPercents, List.filterMap_append]

lemma step1_pp_other (sp : SpotifyEnv) (td : TidalEnv) (p : Bool)
    (t : String) (hne : ("playlists" == t) = false) :
    progressPercents t (step1 sp td p).1 = [] := by
  cases p with
  | false => rfl
  | true =>
    show progressPercents t (playlistsStep sp td {}).1 = []
    have : (playlistsStep sp td {}).1
        = buildBlock "playlists" "Playlists" (playlistsBody sp td).1
            ((playlistsBody sp td).2.map
              (fun pr => CollResult.playlistRes pr.1 pr.2)) := rfl
    rw [this, pp_buildBlock]
    exact pp_empty_of_other t _ (playlistsBody_events_progress sp td) hne

lemma step2_pp_other (sp : SpotifyEnv) (td : TidalEnv) (p fav : Bool)
    (t : String) (hne : ("favorites" == t) = false) :
    progressPercents t (step2 sp td p fav).1 = [] := by
  cases fav with
  | false => rfl
  | true =>
    show progressPercents t (favoritesStep sp td (step1 sp td p).2.1).1 = []
    have : (favoritesStep sp td (step1 sp td p).2.1).1
        = buildBlock "favorites" "Liked Songs" (favoritesBody sp td).1
            (favoritesBody sp td).2 := rfl
    rw [this, pp_buildBlock]
    exact pp_empty_of_other t _ (favoritesBody_events_progress sp td) hne

lemma step3_pp_other (sp : SpotifyEnv) (td : TidalEnv) (p fav alb : Bool)
    (t : String) (hne : ("albums" == t) = false) :
    progressPercents t (step3 sp td p fav alb).1 = [] := by
  cases alb with
  | false => rfl
  | true =>
    show progressPercents t (albumsStep sp td (step2 sp td p fav).2.1).1 = []
    have : (albumsStep sp td (step2 sp td p fav).2.1).1
        = buildBlock "albums" "Albums" (albumsBody sp td).1
            (albumsBody sp td).2 := rfl
    rw [this, pp_buildBlock]
    exact pp_empty_of_other t _ (albumsBody_events_progress sp td) hne

lemma step4_pp_other (sp : SpotifyEnv) (td : TidalEnv) (p fav alb art : Bool)
    (t : String) (hne : ("artists" == t) = false) :
    progressPercents t (step4 sp td p fav alb art).1 = [] := by
  cases art with
  | false => rfl
  | true =>
    show progressPercents t
        (artistsStep sp td (step3 sp td p fav alb).2.1).1 = []
    have : (artistsStep sp td (step3 sp td p fav alb).2.1).1
        = buildBlock "artists" "Artists" (artistsBody sp td).1
            (artistsBody sp td).2 := rfl
    rw [this, pp_buildBlock]
    exact pp_empty_of_other t _ (artistsBody_events_progress sp td) hne

lemma pp_if (t : String) (b : Bool) (l : List Event)
    (h : progressPercents t l = []) :
    progressPercents t (if b then [] else l) = [] := by
  cases b <;> simp [h, pp_nil]

lemma run_decomp (sp : SpotifyEnv) (td : TidalEnv) (p alb art fav : Bool) :
    run_sync_streaming sp td p alb art fav
      = (step1 sp td p).1 ++ (if (step1 sp td p).2.2 then [] else
          ((step2 sp td p fav).1 ++ (if (step2 sp td p fav).2.2 then [] else
            ((step3 sp td p fav alb).1
              ++ (if (step3 sp td p fav alb).2.2 then [] else
                ((step4 sp td p fav alb art).1
                  ++ (if (step4 sp td p fav alb art).2.2 then [] else
                    [Event.complete (finalizeResult
                      (step4 sp td p fav alb art).2.1)]))))))) := by
  simp [run_sync_streaming, assemble]

/-- For each collection type, the run's percent sequence is either empty
(collection not reached or not selected) or exactly the percent sequence
of that collection's body events. -/
lemma pp_run_cases (sp : SpotifyEnv) (td : TidalEnv) (p alb art fav : Bool) :
    (progressPercents "playlists" (run_sync_streaming sp td p alb art fav) = []
      ∨ progressPercents "playlists" (run_sync_streaming sp td p alb art fav)
          = progressPercents "playlists" (playlistsBody sp td).1) ∧
    (progressPercents "favorites" (run_sync_streaming sp td p alb art fav) = []
      ∨ progressPercents "favorites" (run_sync_streaming sp td p alb art fav)
          = progressPercents "favorites" (favoritesBody sp td).1) ∧
    (progressPercents "albums" (run_sync_streaming sp td p alb art fav) = []
      ∨ progressPercents "albums" (run_sync_streaming sp td p alb art fav)
          = progressPercents "albums" (albumsBody sp td).1) ∧
    (progressPercents "artists" (run_sync_streaming sp td p alb art fav) = []
      ∨ progressPercents "artists" (run_sync_streaming sp td p alb art fav)
          = progressPercents "artists" (artistsBody sp td).1) := by
  rw [run_decomp]
  refine ⟨?_, ?_, ?_, ?_⟩
  · have h2 := step2_pp_other sp td p fav "playlists" rfl
    have h3 := step3_pp_other sp td p fav alb "playlists" rfl
    have h4 := step4_pp_other sp td p fav alb art "playlists" rfl
    have htail : progressPercents "playlists"
        (if (step1 sp td p).2.2 then [] else
          ((step2 sp td p fav).1 ++ (if (step2 sp td p fav).2.2 then [] else
            ((step3 sp td p fav alb).1
              ++ (if (step3 sp td p fav alb).2.2 then [] else
                ((step4 sp td p fav alb art).1
                  ++ (if (step4 sp td p fav alb art).2.2 then [] else
                    [Event.complete (finalizeResult
                      (step4 sp td p fav alb art).2.1)]))))))) = [] := by
      apply pp_if
      rw [pp_append, h2]
      apply pp_if
      rw [pp_append, h3]
      apply pp_if
      rw [pp_append, h4]
      apply pp_if
      rfl
    rw [pp_append, htail, List.append_nil]
    cases p with
    | false => exact Or.inl rfl
    | true =>
      refine Or.inr ?_
      show progressPercents "playlists" (playlistsStep sp td {}).1 = _
      have : (playlistsStep sp td {}).1
          = buildBlock "playlists" "Playlists" (playlistsBody sp td).1
              ((playlistsBody sp td).2.map
                (fun pr => CollResult.playlistRes pr.1 pr.2)) := rfl
      rw [this, pp_buildBlock]
  · have h1 := step1_pp_other sp td p "favorites" rfl
    have h3 := step3_pp_other sp td p fav alb "favorites" rfl
    have h4 := step4_pp_other sp td p fav alb art "favorites" rfl
    rw [pp_append, h1, List.nil_append]
    cases (step1 sp td p).2.2 with
    | true => exact Or.inl rfl
    | false =>
      simp only [Bool.false_eq_true, if_false]
      have htail : progressPercents "favorites"
          (if (step2 sp td p fav).2.2 then [] else
            ((step3 sp td p fav alb).1
              ++ (if (step3 sp td p fav alb).2.2 then [] else
                ((step4 sp td p fav alb art).1
                  ++ (if (step4 sp td p fav alb art).2.2 then [] else
                    [Event.complete (finalizeResult
                      (step4 sp td p fav alb art).2.1)]))))) = [] := by
        apply pp_if
        rw [pp_append, h3]
        apply pp_if
        rw [pp_append, h4]
        apply pp_if
        rfl
      rw [pp_append, htail, List.append_nil]
      cases fav with
      | false => exact Or.inl rfl
      | true =>
        refine Or.inr ?_
        show progressPercents "favorites"
            (favoritesStep sp td (step1 sp td p).2.1).1 = _
        have : (favoritesStep sp td (step1 sp td p).2.1).1
            = buildBlock "favorites" "Liked Songs" (favoritesBody sp td).1
                (favoritesBody sp td).2 := rfl
        rw [this, pp_buildBlock]
  · have h1 := step1_pp_other sp td p "albums" rfl
    have h2 := step2_pp_other sp td p fav "albums" rfl
    have h4 := step4_pp_other sp td p fav alb art "albums" rfl
    rw [pp_append, h1, List.nil_append]
    cases (step1 sp td p).2.2 with
    | true => exact Or.inl rfl
    | false =>
      simp only [Bool.false_eq_true, if_false]
      rw [pp_append, h2, List.nil_append]
      cases (step2 sp td p fav).2.2 with
      | true => exact Or.inl rfl
      | false =>
        simp only [Bool.false_eq_true, if_false]
        have htail : progressPercents "albums"
            (if (step3 sp td p fav alb).2.2 then [] else
              ((step4 sp td p fav alb art).1
                ++ (if (step4 sp td p fav alb art).2.2 then [] else
                  [Event.complete (finalizeResult
                    (step4 sp td p fav alb art).2.1)]))) = [] := by
          apply pp_if
          rw [pp_append, h4]
          apply pp_if
          rfl
        rw [pp_append, htail, List.append_nil]
        cases alb with
        | false => exact Or.inl rfl
        | true =>
          refine Or.inr ?_
          show progressPercents "albums"
              (albumsStep sp td (step2 sp td p fav).2.1).1 = _
          have : (albumsStep sp td (step2 sp td p fav).2.1).1
              = buildBlock "albums" "Albums" (albumsBody sp td).1
                  (albumsBody sp td).2 := rfl
          rw [this, pp_buildBlock]
  · have h1 := step1_pp_other sp td p "artists" rfl
    have h2 := step2_pp_other sp td p fav "artists" rfl
    have h3 := step3_pp_other sp td p fav alb "artists" rfl
    rw [pp_append, h1, List.nil_append]
    cases (step1 sp td p).2.2 with
    | true => exact Or.inl rfl
    | false =>
      simp only [Bool.false_eq_true, if_false]
      rw [pp_append, h2, List.nil_append]
      cases (step2 sp td p fav).2.2 with
      | true => exact Or.inl rfl
      | false =>
        simp only [Bool.false_eq_true, if_false]
        rw [pp_append, h3, List.nil_append]
        cases (step3 sp td p fav alb).2.2 with
        | true => exact Or.inl rfl
        | false =>
          simp only [Bool.false_eq_true, if_false]
          have htail : progressPercents "artists"
              (if (step4 sp td p fav alb art).2.2 then [] else
                [Event.complete (finalizeResult
                  (step4 sp td p fav alb art).2.1)]) = [] := by
            apply pp_if
            rfl
          rw [pp_append, htail, List.append_nil]
          cases art with
          | false => exact Or.inl rfl
          | true =>
            refine Or.inr ?_
            show progressPercents "artists"
                (artistsStep sp td (step3 sp td p fav alb).2.1).1 = _
            have : (artistsStep sp td (step3 sp td p fav alb).2.1).1
                = buildBlock "artists" "Artists" (artistsBody sp td).1
                    (artistsBody sp td).2 := rfl
            rw [this, pp_buildBlock]

lemma chain'_cons_le {x : Nat} {l : List Nat}
    (hc : List.Chain' (fun a b => a ≤ b) l) (hx : ∀ y ∈ l, x ≤ y) :
    List.Chain' (fun a b => a ≤ b) (x :: l) :=
  List.chain'_cons'.mpr ⟨fun y hy => hx y (List.mem_of_mem_head? hy), hc⟩

lemma chain'_append_le {l1 l2 : List Nat}
    (h1 : List.Chain' (fun a b => a ≤ b) l1)
    (h2 : List.Chain' (fun a b => a ≤ b) l2)
    (h : ∀ x ∈ l1, ∀ y ∈ l2, x ≤ y) :
    List.Chain' (fun a b => a ≤ b) (l1 ++ l2) :=
  List.Chain'.append h1 h2 (fun x hx y hy =>
    h x (List.mem_of_mem_getLast? hx) y (List.mem_of_mem_head? hy))

lemma pct_mono (x m d : Nat) {a b : Nat} (h : a ≤ b) :
    x + a * m / d ≤ x + b * m / d :=
  Nat.add_le_add_left (Nat.div_le_div_right (Nat.mul_le_mul_right m h)) x

lemma div_pct_le (n T m : Nat) (h : n ≤ T) : n * m / max T 1 ≤ m := by
  have hpos : 0 < max T 1 := lt_of_lt_of_le Nat.one_pos (le_max_right T 1)
  calc n * m / max T 1
      ≤ max T 1 * m / max T 1 :=
        Nat.div_le_div_right
          (Nat.mul_le_mul_right m (le_trans h (le_max_left T 1)))
    _ = m := Nat.mul_div_cancel_left m hpos

lemma chunk3_eq_cons {α : Type} (a b c : α) (rest : List α) :
    chunk3 (a :: b :: c :: rest)
      = ([a, b, c] :: (chunk3 rest).1, (chunk3 rest).2) := rfl

lemma chunk3_sum {α : Type} :
    ∀ (n : Nat) (l : List α), l.length ≤ n →
      (((chunk3 l).1.map List.length).sum + (chunk3 l).2.length = l.length) := by
  intro n
  induction n with
  | zero =>
    intro l hl
    have : l = [] := List.eq_nil_of_length_eq_zero (Nat.le_zero.mp hl)
    subst this
    rfl
  | succ m ih =>
    intro l hl
    match l with
    | [] => rfl
    | [a] => rfl
    | [a, b] => rfl
    | a :: b :: c :: rest =>
      rw [chunk3_eq_cons]
      have hrest : rest.length ≤ m := by
        simp only [List.length_cons] at hl
        omega
      have hih := ih rest hrest
      simp only [List.map_cons, List.sum_cons, List.length_cons,
        List.length_nil]
      omega

lemma loadPages_pp15 (task label : String) (pages : List (List Nat)) :
    ∀ S, ∀ q ∈ progressPercents task (loadPages task label pages S).2,
      q = 15 := by
  induction pages with
  | nil => simp [loadPages, pp_nil]
  | cons pg rest ih =>
    intro S q hq
    by_cases hp : pg.isEmpty
    · simp [loadPages, hp, pp_nil] at hq
    · by_cases hl : pg.length < 100
      · simp [loadPages, hp, hl, pp_nil] at hq
      · simp only [loadPages, hp, hl, Bool.false_eq_true, if_false] at hq
        rw [pp_own_cons] at hq
        rcases List.mem_cons.mp hq with h | h
        · exact h
        · exact ih _ q h

lemma favChunksLoop_pp (td : TidalEnv) (total : Nat) :
    ∀ (chs : List (List SpotifyTrack)) (S : Finset Nat) (p a : Nat)
      (nf : List String),
      List.Chain' (fun x y => x ≤ y)
        (progressPercents "favorites"
          (favChunksLoop td total chs S p a nf).events) ∧
      (∀ q ∈ progressPercents "favorites"
          (favChunksLoop td total chs S p a nf).events,
        20 + p * 75 / max total 1 ≤ q ∧
          q ≤ 20 + (p + (chs.map List.length).sum) * 75 / max total 1) := by
  intro chs
  induction chs with
  | nil =>
    intro S p a nf
    exact ⟨List.chain'_nil, by simp [favChunksLoop, pp_nil]⟩
  | cons ch rest ih =>
    intro S p a nf
    have hev : (favChunksLoop td total (ch :: rest) S p a nf).events
        = Event.progress "favorites" (20 + (p + ch.length) * 75 / max total 1)
            ("Processing " ++ toString (p + ch.length) ++ "/" ++ toString total)
          :: (favChunksLoop td total rest (processBatch td ch S).ids
              (p + ch.length) (a + (processBatch td ch S).addCount)
              (nf ++ (processBatch td ch S).nf)).events := rfl
    rw [hev, pp_own_cons]
    obtain ⟨ihc, ihb⟩ := ih (processBatch td ch S).ids (p + ch.length)
      (a + (processBatch td ch S).addCount) (nf ++ (processBatch td ch S).nf)
    refine ⟨chain'_cons_le ihc (fun y hy => (ihb y hy).1), ?_⟩
    intro q hq
    rcases List.mem_cons.mp hq with h | h
    · subst h
      refine ⟨pct_mono 20 75 (max total 1) (Nat.le_add_right p ch.length), ?_⟩
      refine pct_mono 20 75 (max total 1) ?_
      simp only [List.map_cons, List.sum_cons]
      omega
    · obtain ⟨hlo, hhi⟩ := ihb q h
      refine ⟨le_trans
        (pct_mono 20 75 (max total 1) (Nat.le_add_right p ch.length)) hlo, ?_⟩
      refine le_trans hhi (pct_mono 20 75 (max total 1) ?_)
      simp only [List.map_cons, List.sum_cons]
      omega

lemma albumsLoop_pp (td : TidalEnv) (total : Nat) :
    ∀ (its : List SpotifyAlbum) (S : Finset Nat) (p a : Nat)
      (nf : List String),
      List.Chain' (fun x y => x ≤ y)
        (progressPercents "albums" (albumsLoop td total its S p a nf).events) ∧
      (∀ q ∈ progressPercents "albums"
          (albumsLoop td total its S p a nf).events,
        20 + p * 80 / max total 1 ≤ q ∧
          q ≤ 20 + (p + its.length) * 80 / max total 1) ∧
      (its ≠ [] →
        (progressPercents "albums"
            (albumsLoop td total its S p a nf).events).getLast?
          = some (20 + (p + its.length) * 80 / max total 1)) := by
  intro its
  induction its with
  | nil =>
    intro S p a nf
    exact ⟨List.chain'_nil, by simp [albumsLoop, pp_nil],
      fun h => absurd rfl h⟩
  | cons alb rest ih =>
    intro S p a nf
    have hev : (albumsLoop td total (alb :: rest) S p a nf).events
        = Event.progress "albums" (20 + (p + 1) * 80 / max total 1)
            (toString (p + 1) ++ "/" ++ toString total ++ ": "
              ++ String.mk (alb.name.data.take 25))
          :: (albumsLoop td total rest (albumItem td alb S).ids (p + 1)
              (a + (albumItem td alb S).addCount)
              (nf ++ (albumItem td alb S).nf)).events := rfl
    rw [hev, pp_own_cons]
    obtain ⟨ihc, ihb, ihl⟩ := ih (albumItem td alb S).ids (p + 1)
      (a + (albumItem td alb S).addCount) (nf ++ (albumItem td alb S).nf)
    refine ⟨chain'_cons_le ihc (fun y hy => (ihb y hy).1), ?_, ?_⟩
    · intro q hq
      rcases List.mem_cons.mp hq with h | h
      · subst h
        refine ⟨pct_mono 20 80 (max total 1) (Nat.le_add_right p 1), ?_⟩
        refine pct_mono 20 80 (max total 1) ?_
        simp only [List.length_cons]
        omega
      · obtain ⟨hlo, hhi⟩ := ihb q h
        refine ⟨le_trans
          (pct_mono 20 80 (max total 1) (Nat.le_add_right p 1)) hlo, ?_⟩
        refine le_trans hhi (pct_mono 20 80 (max total 1) ?_)
        simp only [List.length_cons]
        omega
    · intro _
      cases rest with
      | nil =>
        simp only [albumsLoop, pp_nil, List.getLast?_singleton,
          List.length_cons, List.length_nil]
      | cons b bs =>
        have hlast := ihl (List.cons_ne_nil b bs)
        cases hpp : progressPercents "albums"
            (albumsLoop td total (b :: bs) (albumItem td alb S).ids (p + 1)
              (a + (albumItem td alb S).addCount)
              (nf ++ (albumItem td alb S).nf)).events with
        | nil =>
          rw [hpp] at hlast
          simp at hlast
        | cons y ys =>
          rw [hpp] at hlast
          rw [List.getLast?_cons_cons, hlast]
          simp only [List.length_cons]
          have : p + 1 + (bs.length + 1) = p + (bs.length + 1 + 1) := by omega
          rw [this]

lemma artistsLoop_pp (td : TidalEnv) (total : Nat) :
    ∀ (its : List SpotifyArtist) (S : Finset Nat) (p a : Nat)
      (nf : List String),
      List.Chain' (fun x y => x ≤ y)
        (progressPercents "artists"
          (artistsLoop td total its S p a nf).events) ∧
      (∀ q ∈ progressPercents "artists"
          (artistsLoop td total its S p a nf).events,
        20 + p * 80 / max total 1 ≤ q ∧
          q ≤ 20 + (p + its.length) * 80 / max total 1) ∧
      (its ≠ [] →
        (progressPercents "artists"
            (artistsLoop td total its S p a nf).events).getLast?
          = some (20 + (p + its.length) * 80 / max total 1)) := by
  intro its
  induction its with
  | nil =>
    intro S p a nf
    exact ⟨List.chain'_nil, by simp [artistsLoop, pp_nil],
      fun h => absurd rfl h⟩
  | cons ar rest ih =>
    intro S p a nf
    have hev : (artistsLoop td total (ar :: rest) S p a nf).events
        = Event.progress "artists" (20 + (p + 1) * 80 / max total 1)
            (toString (p + 1) ++ "/" ++ toString total ++ ": "
              ++ String.mk (ar.name.data.take 25))
          :: (artistsLoop td total rest (artistItem td ar S).ids (p + 1)
              (a + (artistItem td ar S).addCount)
              (nf ++ (artistItem td ar S).nf)).events := rfl
    rw [hev, pp_own_cons]
    obtain ⟨ihc, ihb, ihl⟩ := ih (artistItem td ar S).ids (p + 1)
      (a + (artistItem td ar S).addCount) (nf ++ (artistItem td ar S).nf)
    refine ⟨chain'_cons_le ihc (fun y hy => (ihb y hy).1), ?_, ?_⟩
    · intro q hq
      rcases List.mem_cons.mp hq with h | h
      · subst h
        refine ⟨pct_mono 20 80 (max total 1) (Nat.le_add_right p 1), ?_⟩
        refine pct_mono 20 80 (max total 1) ?_
        simp only [List.length_cons]
        omega
      · obtain ⟨hlo, hhi⟩ := ihb q h
        refine ⟨le_trans
          (pct_mono 20 80 (max total 1) (Nat.le_add_right p 1)) hlo, ?_⟩
        refine le_trans hhi (pct_mono 20 80 (max total 1) ?_)
        simp only [List.length_cons]
        omega
    · intro _
      cases rest with
      | nil =>
        simp only [artistsLoop, pp_nil, List.getLast?_singleton,
          List.length_cons, List.length_nil]
      | cons b bs =>
        have hlast := ihl (List.cons_ne_nil b bs)
        cases hpp : progressPercents "artists"
            (artistsLoop td total (b :: bs) (artistItem td ar S).ids (p + 1)
              (a + (artistItem td ar S).addCount)
              (nf ++ (artistItem td ar S).nf)).events with
        | nil =>
          rw [hpp] at hlast
          simp at hlast
        | cons y ys =>
          rw [hpp] at hlast
          rw [List.getLast?_cons_cons, hlast]
          simp only [List.length_cons]
          have : p + 1 + (bs.length + 1) = p + (bs.length + 1 + 1) := by omega
          rw [this]

lemma chain'_of_all_eq (c : Nat) (l : List Nat) (h : ∀ x ∈ l, x = c) :
    List.Chain' (fun a b => a ≤ b) l := by
  induction l with
  | nil => exact List.chain'_nil
  | cons a tail ih =>
    refine chain'_cons_le (ih (fun x hx => h x (List.mem_cons_of_mem a hx))) ?_
    intro y hy
    rw [h a (List.mem_cons_self a tail), h y (List.mem_cons_of_mem a hy)]

/-- The chain property of a collection body's percent list: the fixed
preamble 5, 10, 12, then keep-alive 15s, then the loop percents (all at
least 20 and themselves a chain). -/
lemma body_pp_chain (L C : List Nat) (hL : ∀ x ∈ L, x = 15)
    (hC : List.Chain' (fun a b => a ≤ b) C) (hCl : ∀ y ∈ C, 20 ≤ y) :
    List.Chain' (fun a b => a ≤ b) (5 :: 10 :: 12 :: (L ++ C)) := by
  have hLC : List.Chain' (fun a b => a ≤ b) (L ++ C) := by
    refine chain'_append_le (chain'_of_all_eq 15 L hL) hC ?_
    intro x hx y hy
    rw [hL x hx]
    exact le_trans (by norm_num) (hCl y hy)
  have hmem : ∀ y ∈ L ++ C, 12 ≤ y := by
    intro y hy
    rcases List.mem_append.mp hy with h | h
    · rw [hL y h]; norm_num
    · exact le_trans (by norm_num) (hCl y h)
  refine chain'_cons_le (chain'_cons_le (chain'_cons_le hLC hmem)
    (fun y hy => ?_)) (fun y hy => ?_)
  · rcases List.mem_cons.mp hy with h | h
    · omega
    · exact le_trans (by norm_num) (hmem y h)
  · rcases List.mem_cons.mp hy with h | h
    · omega
    · rcases List.mem_cons.mp h with h2 | h2
      · omega
      · exact le_trans (by norm_num) (hmem y h2)

lemma body_pp_bound (B : Nat) (hB : 95 ≤ B) (L C : List Nat)
    (hL : ∀ x ∈ L, x = 15) (hCb : ∀ y ∈ C, y ≤ B) :
    ∀ q ∈ 5 :: 10 :: 12 :: (L ++ C), q ≤ B := by
  intro q hq
  rcases List.mem_cons.mp hq with h | h
  · omega
  rcases List.mem_cons.mp h with h | h
  · omega
  rcases List.mem_cons.mp h with h | h
  · omega
  rcases List.mem_append.mp h with h | h
  · rw [hL q h]; omega
  · exact hCb q h

lemma favoritesBody_events_err (sp : SpotifyEnv) (td : TidalEnv) (e : Err)
    (hc : sp.tracksCount = Except.error e) :
    (favoritesBody sp td).1
      = [Event.progress "favorites" 5 "Counting tracks..."] := by
  unfold favoritesBody
  rw [hc]

lemma favoritesBody_events_ok (sp : SpotifyEnv) (td : TidalEnv) (total : Nat)
    (hc : sp.tracksCount = Except.ok total) :
    (favoritesBody sp td).1
      = Event.progress "favorites" 5 "Counting tracks..."
        :: Event.progress "favorites" 10
            ("Found " ++ toString total ++ " tracks")
        :: Event.progress "favorites" 12
            "Loading Tidal favorites (may take a moment)..."
        :: ((loadPages "favorites" " Tidal favorites..." td.trackPages ∅).2
            ++ (favChunksLoop td total (chunk3 sp.savedTracks.items).1
                (loadPages "favorites" " Tidal favorites..." td.trackPages ∅).1
                0 0 []).events) := by
  unfold favoritesBody
  rw [hc]
  dsimp only
  cases sp.savedTracks.err <;> rfl

lemma albumsBody_events_err (sp : SpotifyEnv) (td : TidalEnv) (e : Err)
    (hc : sp.albumsCount = Except.error e) :
    (albumsBody sp td).1
      = [Event.progress "albums" 5 "Counting albums..."] := by
  unfold albumsBody
  rw [hc]

lemma albumsBody_events_ok (sp : SpotifyEnv) (td : TidalEnv) (total : Nat)
    (hc : sp.albumsCount = Except.ok total) :
    (albumsBody sp td).1
      = Event.progress "albums" 5 "Counting albums..."
        :: Event.progress "albums" 10
            ("Found " ++ toString total ++ " albums")
        :: Event.progress "albums" 12 "Loading Tidal albums..."
        :: ((loadPages "albums" " Tidal albums..." td.albumPages ∅).2
            ++ (albumsLoop td total sp.savedAlbums.items
                (loadPages "albums" " Tidal albums..." td.albumPages ∅).1
                0 0 []).events) := by
  unfold albumsBody
  rw [hc]
  dsimp only
  cases sp.savedAlbums.err <;> rfl

lemma artistsBody_events_err (sp : SpotifyEnv) (td : TidalEnv) (e : Err)
    (hc : sp.artistsCount = Except.error e) :
    (artistsBody sp td).1
      = [Event.progress "artists" 5 "Counting artists..."] := by
  unfold artistsBody
  rw [hc]

lemma artistsBody_events_ok (sp : SpotifyEnv) (td : TidalEnv) (total : Nat)
    (hc : sp.artistsCount = Except.ok total) :
    (artistsBody sp td).1
      = Event.progress "artists" 5 "Counting artists..."
        :: Event.progress "artists" 10
            ("Found " ++ toString total ++ " artists")
        :: Event.progress "artists" 12 "Loading Tidal artists..."
        :: ((loadPages "artists" " Tidal artists..." td.artistPages ∅).2
            ++ (artistsLoop td total sp.followedArtists.items
                (loadPages "artists" " Tidal artists..." td.artistPages ∅).1
                0 0 []).events) := by
  unfold artistsBody
  rw [hc]
  dsimp only
  cases sp.followedArtists.err <;> rfl

lemma favoritesBody_pp_good (sp : SpotifyEnv) (td : TidalEnv)
    (hT : ∀ n, sp.tracksCount = Except.ok n →
      sp.savedTracks.items.length ≤ n) :
    List.Chain' (fun a b => a ≤ b)
      (progressPercents "favorites" (favoritesBody sp td).1) ∧
    ∀ q ∈ progressPercents "favorites" (favoritesBody sp td).1, q ≤ 95 := by
  cases hc : sp.tracksCount with
  | error e =>
    rw [favoritesBody_events_err sp td e hc, pp_own_cons, pp_nil]
    refine ⟨by simp, ?_⟩
    intro q hq
    simp only [List.mem_singleton] at hq
    omega
  | ok total =>
    rw [favoritesBody_events_ok sp td total hc, pp_own_cons, pp_own_cons,
      pp_own_cons, pp_append]
    have hL := loadPages_pp15 "favorites" " Tidal favorites..." td.trackPages
      (∅ : Finset Nat)
    obtain ⟨hCc, hCb⟩ := favChunksLoop_pp td total
      (chunk3 sp.savedTracks.items).1
      (loadPages "favorites" " Tidal favorites..." td.trackPages ∅).1 0 0 []
    have hsum : ((chunk3 sp.savedTracks.items).1.map List.length).sum
        ≤ total := by
      have h1 := chunk3_sum sp.savedTracks.items.length
        sp.savedTracks.items (le_refl _)
      have h2 := hT total hc
      omega
    have hlow : ∀ y ∈ progressPercents "favorites"
        (favChunksLoop td total (chunk3 sp.savedTracks.items).1
          (loadPages "favorites" " Tidal favorites..." td.trackPages ∅).1
          0 0 []).events, 20 ≤ y := by
      intro y hy
      have := (hCb y hy).1
      simpa using this
    have hupp : ∀ y ∈ progressPercents "favorites"
        (favChunksLoop td total (chunk3 sp.savedTracks.items).1
          (loadPages "favorites" " Tidal favorites..." td.trackPages ∅).1
          0 0 []).events, y ≤ 95 := by
      intro y hy
      have h1 := (hCb y hy).2
      have h2 : (0 + ((chunk3 sp.savedTracks.items).1.map List.length).sum)
          * 75 / max total 1 ≤ 75 :=
        div_pct_le _ total 75 (by omega)
      omega
    exact ⟨body_pp_chain _ _ hL hCc hlow,
      body_pp_bound 95 (le_refl _) _ _ hL hupp⟩

lemma albumsBody_pp_good (sp : SpotifyEnv) (td : TidalEnv)
    (hA : ∀ n, sp.albumsCount = Except.ok n →
      sp.savedAlbums.items.length ≤ n) :
    List.Chain' (fun a b => a ≤ b)
      (progressPercents "albums" (albumsBody sp td).1) ∧
    ∀ q ∈ progressPercents "albums" (albumsBody sp td).1, q ≤ 100 := by
  cases hc : sp.albumsCount with
  | error e =>
    rw [albumsBody_events_err sp td e hc, pp_own_cons, pp_nil]
    refine ⟨by simp, ?_⟩
    intro q hq
    simp only [List.mem_singleton] at hq
    omega
  | ok total =>
    rw [albumsBody_events_ok sp td total hc, pp_own_cons, pp_own_cons,
      pp_own_cons, pp_append]
    have hL := loadPages_pp15 "albums" " Tidal albums..." td.albumPages
      (∅ : Finset Nat)
    obtain ⟨hCc, hCb, _⟩ := albumsLoop_pp td total sp.savedAlbums.items
      (loadPages "albums" " Tidal albums..." td.albumPages ∅).1 0 0 []
    have hlen : sp.savedAlbums.items.length ≤ total := hA total hc
    have hlow : ∀ y ∈ progressPercents "albums"
        (albumsLoop td total sp.savedAlbums.items
          (loadPages "albums" " Tidal albums..." td.albumPages ∅).1
          0 0 []).events, 20 ≤ y := by
      intro y hy
      have := (hCb y hy).1
      simpa using this
    have hupp : ∀ y ∈ progressPercents "albums"
        (albumsLoop td total sp.savedAlbums.items
          (loadPages "albums" " Tidal albums..." td.albumPages ∅).1
          0 0 []).events, y ≤ 100 := by
      intro y hy
      have h1 := (hCb y hy).2
      have h2 : (0 + sp.savedAlbums.items.length) * 80 / max total 1 ≤ 80 :=
        div_pct_le _ total 80 (by omega)
      omega
    exact ⟨body_pp_chain _ _ hL hCc hlow,
      body_pp_bound 100 (by omega) _ _ hL hupp⟩

lemma artistsBody_pp_good (sp : SpotifyEnv) (td : TidalEnv)
    (hR : ∀ n, sp.artistsCount = Except.ok n →
      sp.followedArtists.items.length ≤ n) :
    List.Chain' (fun a b => a ≤ b)
      (progressPercents "artists" (artistsBody sp td).1) ∧
    ∀ q ∈ progressPercents "artists" (artistsBody sp td).1, q ≤ 100 := by
  cases hc : sp.artistsCount with
  | error e =>
    rw [artistsBody_events_err sp td e hc, pp_own_cons, pp_nil]
    refine ⟨by simp, ?_⟩
    intro q hq
    simp only [List.mem_singleton] at hq
    omega
  | ok total =>
    rw [artistsBody_events_ok sp td total hc, pp_own_cons, pp_own_cons,
      pp_own_cons, pp_append]
    have hL := loadPages_pp15 "artists" " Tidal artists..." td.artistPages
      (∅ : Finset Nat)
    obtain ⟨hCc, hCb, _⟩ := artistsLoop_pp td total sp.followedArtists.items
      (loadPages "artists" " Tidal artists..." td.artistPages ∅).1 0 0 []
    have hlen : sp.followedArtists.items.length ≤ total := hR total hc
    have hlow : ∀ y ∈ progressPercents "artists"
        (artistsLoop td total sp.followedArtists.items
          (loadPages "artists" " Tidal artists..." td.artistPages ∅).1
          0 0 []).events, 20 ≤ y := by
      intro y hy
      have := (hCb y hy).1
      simpa using this
    have hupp : ∀ y ∈ progressPercents "artists"
        (artistsLoop td total sp.followedArtists.items
          (loadPages "artists" " Tidal artists..." td.artistPages ∅).1
          0 0 []).events, y ≤ 100 := by
      intro y hy
      have h1 := (hCb y hy).2
      have h2 : (0 + sp.followedArtists.items.length) * 80 / max total 1
          ≤ 80 := div_pct_le _ total 80 (by omega)
      omega
    exact ⟨body_pp_chain _ _ hL hCc hlow,
      body_pp_bound 100 (by omega) _ _ hL hupp⟩

lemma albumsBody_pp_last (sp : SpotifyEnv) (td : TidalEnv) (T : Nat)
    (hc : sp.albumsCount = Except.ok T) (hpos : 0 < T)
    (hlen : sp.savedAlbums.items.length = T) :
    (progressPercents "albums" (albumsBody sp td).1).getLast? = some 100 := by
  rw [albumsBody_events_ok sp td T hc, pp_own_cons, pp_own_cons, pp_own_cons,
    pp_append]
  have hne : sp.savedAlbums.items ≠ [] := by
    intro h
    rw [h] at hlen
    simp at hlen
    omega
  obtain ⟨_, _, hlast⟩ := albumsLoop_pp td T sp.savedAlbums.items
    (loadPages "albums" " Tidal albums..." td.albumPages ∅).1 0 0 []
  have hlast2 := hlast hne
  have hCne : progressPercents "albums"
      (albumsLoop td T sp.savedAlbums.items
        (loadPages "albums" " Tidal albums..." td.albumPages ∅).1
        0 0 []).events ≠ [] := by
    intro h
    rw [h] at hlast2
    simp at hlast2
  rw [List.getLast?_cons_cons, List.getLast?_cons_cons]
  have hsh : (12 :: (progressPercents "albums"
        (loadPages "albums" " Tidal albums..." td.albumPages ∅).2
      ++ progressPercents "albums"
        (albumsLoop td T sp.savedAlbums.items
          (loadPages "albums" " Tidal albums..." td.albumPages ∅).1
          0 0 []).events))
      = [12] ++ (progressPercents "albums"
          (loadPages "albums" " Tidal albums..." td.albumPages ∅).2
        ++ progressPercents "albums"
          (albumsLoop td T sp.savedAlbums.items
            (loadPages "albums" " Tidal albums..." td.albumPages ∅).1
            0 0 []).events) := rfl
  rw [hsh, List.getLast?_append_of_ne_nil _
      (fun h => hCne (List.append_eq_nil.mp h).2),
    List.getLast?_append_of_ne_nil _ hCne, hlast2, hlen]
  have hmax : max T 1 = T := Nat.max_eq_left hpos
  rw [Nat.zero_add, hmax, Nat.mul_comm, Nat.mul_div_cancel 80 hpos]

lemma artistsBody_pp_last (sp : SpotifyEnv) (td : TidalEnv) (T : Nat)
    (hc : sp.artistsCount = Except.ok T) (hpos : 0 < T)
    (hlen : sp.followedArtists.items.length = T) :
    (progressPercents "artists" (artistsBody sp td).1).getLast? = some 100 := by
  rw [artistsBody_events_ok sp td T hc, pp_own_cons, pp_own_cons, pp_own_cons,
    pp_append]
  have hne : sp.followedArtists.items ≠ [] := by
    intro h
    rw [h] at hlen
    simp at hlen
    omega
  obtain ⟨_, _, hlast⟩ := artistsLoop_pp td T sp.followedArtists.items
    (loadPages "artists" " Tidal artists..." td.artistPages ∅).1 0 0 []
  have hlast2 := hlast hne
  have hCne : progressPercents "artists"
      (artistsLoop td T sp.followedArtists.items
        (loadPages "artists" " Tidal artists..." td.artistPages ∅).1
        0 0 []).events ≠ [] := by
    intro h
    rw [h] at hlast2
    simp at hlast2
  rw [List.getLast?_cons_cons, List.getLast?_cons_cons]
  have hsh : (12 :: (progressPercents "artists"
        (loadPages "artists" " Tidal artists..." td.artistPages ∅).2
      ++ progressPercents "artists"
        (artistsLoop td T sp.followedArtists.items
          (loadPages "artists" " Tidal artists..." td.artistPages ∅).1
          0 0 []).events))
      = [12] ++ (progressPercents "artists"
          (loadPages "artists" " Tidal artists..." td.artistPages ∅).2
        ++ progressPercents "artists"
          (artistsLoop td T sp.followedArtists.items
            (loadPages "artists" " Tidal artists..." td.artistPages ∅).1
            0 0 []).events) := rfl
  rw [hsh, List.getLast?_append_of_ne_nil _
      (fun h => hCne (List.append_eq_nil.mp h).2),
    List.getLast?_append_of_ne_nil _ hCne, hlast2, hlen]
  have hmax : max T 1 = T := Nat.max_eq_left hpos
  rw [Nat.zero_add, hmax, Nat.mul_comm, Nat.mul_div_cancel 80 hpos]

lemma pp_map_progress (t : String) {α : Type} (l : List α) (g : α → Nat)
    (s : α → String) :
    progressPercents t (l.map (fun x => Event.progress t (g x) (s x)))
      = l.map g := by
  induction l with
  | nil => rfl
  | cons a tail ih =>
    rw [List.map_cons, List.map_cons, pp_own_cons, ih]

lemma playlistsBody_events_err1 (sp : SpotifyEnv) (td : TidalEnv) (e : Err)
    (hf : sp.playlistsFetch = Except.error e) :
    (playlistsBody sp td).1 = [] := by
  unfold playlistsBody
  rw [hf]

lemma playlistsBody_events_err2 (sp : SpotifyEnv) (td : TidalEnv)
    (names : List String) (e : Err)
    (hf : sp.playlistsFetch = Except.ok names)
    (ha : td.allPlaylists = Except.error e) :
    (playlistsBody sp td).1 = [] := by
  unfold playlistsBody
  rw [hf]
  dsimp only
  rw [ha]

lemma playlistsBody_events_ok (sp : SpotifyEnv) (td : TidalEnv)
    (names ns : List String)
    (hf : sp.playlistsFetch = Except.ok names)
    (ha : td.allPlaylists = Except.ok ns) :
    (playlistsBody sp td).1
      = names.enum.map (fun pr =>
          Event.progress "playlists"
            (if names.length > 0 then (pr.1 + 1) * 100 / names.length else 100)
            pr.2) := by
  unfold playlistsBody
  rw [hf]
  dsimp only
  rw [ha]

lemma playlistsBody_pp_range (sp : SpotifyEnv) (td : TidalEnv)
    (names ns : List String)
    (hf : sp.playlistsFetch = Except.ok names)
    (ha : td.allPlaylists = Except.ok ns) (hpos : 0 < names.length) :
    progressPercents "playlists" (playlistsBody sp td).1
      = (List.range names.length).map
          (fun i => (i + 1) * 100 / names.length) := by
  rw [playlistsBody_events_ok sp td names ns hf ha, pp_map_progress]
  have hg : names.enum.map (fun pr =>
      if names.length > 0 then (pr.1 + 1) * 100 / names.length else 100)
      = names.enum.map (fun pr => (pr.1 + 1) * 100 / names.length) := by
    simp [hpos]
  rw [hg]
  have hcomp : (fun (pr : Nat × String) => (pr.1 + 1) * 100 / names.length)
      = (fun i => (i + 1) * 100 / names.length) ∘ Prod.fst := rfl
  rw [hcomp, ← List.map_map, List.enum_map_fst]

lemma playlistsBody_pp_good (sp : SpotifyEnv) (td : TidalEnv) :
    List.Chain' (fun a b => a ≤ b)
      (progressPercents "playlists" (playlistsBody sp td).1) ∧
    ∀ q ∈ progressPercents "playlists" (playlistsBody sp td).1, q ≤ 100 := by
  cases hf : sp.playlistsFetch with
  | error e =>
    rw [playlistsBody_events_err1 sp td e hf, pp_nil]
    exact ⟨List.chain'_nil, by simp⟩
  | ok names =>
    cases ha : td.allPlaylists with
    | error e =>
      rw [playlistsBody_events_err2 sp td names e hf ha, pp_nil]
      exact ⟨List.chain'_nil, by simp⟩
    | ok ns =>
      by_cases hn : names = []
      · subst hn
        rw [playlistsBody_events_ok sp td [] ns hf ha]
        exact ⟨by simp [pp_nil], by simp [pp_nil]⟩
      · have hpos : 0 < names.length := List.length_pos.mpr hn
        rw [playlistsBody_pp_range sp td names ns hf ha hpos]
        constructor
        · rw [List.chain'_map]
          obtain ⟨m, hm⟩ : ∃ m, names.length = m + 1 :=
            ⟨names.length - 1, by omega⟩
          rw [hm, List.chain'_range_succ]
          intro k _
          exact Nat.div_le_div_right (Nat.mul_le_mul_right 100 (by omega))
        · intro q hq
          simp only [List.mem_map, List.mem_range] at hq
          obtain ⟨i, hi, rfl⟩ := hq
          calc (i + 1) * 100 / names.length
              ≤ names.length * 100 / names.length :=
                Nat.div_le_div_right (Nat.mul_le_mul_right 100 (by omega))
            _ = 100 := by
                rw [Nat.mul_comm]
                exact Nat.mul_div_cancel 100 hpos

lemma playlistsBody_pp_last (sp : SpotifyEnv) (td : TidalEnv)
    (names ns : List String)
    (hf : sp.playlistsFetch = Except.ok names)
    (ha : td.allPlaylists = Except.ok ns) (hne : names ≠ []) :
    (progressPercents "playlists" (playlistsBody sp td).1).getLast?
      = some 100 := by
  have hpos : 0 < names.length := List.length_pos.mpr hne
  rw [playlistsBody_pp_range sp td names ns hf ha hpos]
  obtain ⟨m, hm⟩ : ∃ m, names.length = m + 1 := ⟨names.length - 1, by omega⟩
  rw [hm, List.range_succ, List.map_append, List.map_singleton,
    List.getLast?_concat]
  have : (m + 1) * 100 / (m + 1) = 100 := by
    rw [Nat.mul_comm]
    exact Nat.mul_div_cancel 100 (Nat.succ_pos m)
  rw [this]

lemma playlistsBody_pp_zero (sp : SpotifyEnv) (td : TidalEnv)
    (hf : sp.playlistsFetch = Except.ok []) :
    progressPercents "playlists" (playlistsBody sp td).1 = [] := by
  cases ha : td.allPlaylists with
  | error e => rw [playlistsBody_events_err2 sp td [] e hf ha, pp_nil]
  | ok ns =>
    rw [playlistsBody_events_ok sp td [] ns hf ha]
    simp [pp_nil]

lemma favoritesBody_pp_zero (sp : SpotifyEnv) (td : TidalEnv)
    (hc : sp.tracksCount = Except.ok 0)
    (hlen : sp.savedTracks.items = []) :
    ∀ q ∈ progressPercents "favorites" (favoritesBody sp td).1, q ≤ 15 := by
  rw [favoritesBody_events_ok sp td 0 hc, pp_own_cons, pp_own_cons,
    pp_own_cons, pp_append, hlen]
  have hloop : progressPercents "favorites"
      (favChunksLoop td 0 (chunk3 ([] : List SpotifyTrack)).1
        (loadPages "favorites" " Tidal favorites..." td.trackPages ∅).1
        0 0 []).events = [] := rfl
  rw [hloop, List.append_nil]
  intro q hq
  rcases List.mem_cons.mp hq with h | hq
  · omega
  rcases List.mem_cons.mp hq with h | hq
  · omega
  rcases List.mem_cons.mp hq with h | hq
  · omega
  have h15 := loadPages_pp15 "favorites" " Tidal favorites..." td.trackPages
    (∅ : Finset Nat) q hq
  omega

lemma albumsBody_pp_zero (sp : SpotifyEnv) (td : TidalEnv)
    (hc : sp.albumsCount = Except.ok 0)
    (hlen : sp.savedAlbums.items = []) :
    ∀ q ∈ progressPercents "albums" (albumsBody sp td).1, q ≤ 15 := by
  rw [albumsBody_events_ok sp td 0 hc, pp_own_cons, pp_own_cons,
    pp_own_cons, pp_append, hlen]
  have hloop : progressPercents "albums"
      (albumsLoop td 0 ([] : List SpotifyAlbum)
        (loadPages "albums" " Tidal albums..." td.albumPages ∅).1
        0 0 []).events = [] := rfl
  rw [hloop, List.append_nil]
  intro q hq
  rcases List.mem_cons.mp hq with h | hq
  · omega
  rcases List.mem_cons.mp hq with h | hq
  · omega
  rcases List.mem_cons.mp hq with h | hq
  · omega
  have h15 := loadPages_pp15 "albums" " Tidal albums..." td.albumPages
    (∅ : Finset Nat) q hq
  omega

lemma artistsBody_pp_zero (sp : SpotifyEnv) (td : TidalEnv)
    (hc : sp.artistsCount = Except.ok 0)
    (hlen : sp.followedArtists.items = []) :
    ∀ q ∈ progressPercents "artists" (artistsBody sp td).1, q ≤ 15 := by
  rw [artistsBody_events_ok sp td 0 hc, pp_own_cons, pp_own_cons,
    pp_own_cons, pp_append, hlen]
  have hloop : progressPercents "artists"
      (artistsLoop td 0 ([] : List SpotifyArtist)
        (loadPages "artists" " Tidal artists..." td.artistPages ∅).1
        0 0 []).events = [] := rfl
  rw [hloop, List.append_nil]
  intro q hq
  rcases List.mem_cons.mp hq with h | hq
  · omega
  rcases List.mem_cons.mp hq with h | hq
  · omega
  rcases List.mem_cons.mp hq with h | hq
  · omega
  have h15 := loadPages_pp15 "artists" " Tidal artists..." td.artistPages
    (∅ : Finset Nat) q hq
  omega

/-- C1 counterexample: syncing only favorites against an empty library
(total count 0, no tracks) emits the percent sequence [5, 10, 12]: the
final percent before `done` is 12, not 100, and no single 100% event is
emitted although the total is 0 — refuting the claim's "final percent is
100 (or exactly one 100% event when the total count is 0)". -/
theorem c1_zero_total_never_reaches_100 :
    progressPercents "favorites"
        (run_sync_streaming emptySp emptyTd false false false true)
      = [5, 10, 12] ∧
    (progressPercents "favorites"
        (run_sync_streaming emptySp emptyTd false false false true)).getLast?
      ≠ some 100 ∧
    (progressPercents "favorites"
        (run_sync_streaming emptySp emptyTd false false false true)).count 100
      = 0 :=
  ⟨by decide, by decide, by decide⟩

/-- C1 (amended): when the source counts are consistent with the streamed
item counts, every collection's progress percents are monotonically
non-decreasing and lie in [0, 100]; the favorites percents never exceed 95
(so favorites never reaches 100 before its Done); and the final percent of
a non-empty playlists, albums or artists collection is exactly 100.  When
a collection's total is 0, no 100% event is emitted at all: playlists emit
no progress events, and favorites/albums/artists emit only their fixed
preamble percents (5, 10, 12) and the 15% keep-alives of the destination
index load, so every percent is at most 15. -/
theorem c1_progress_percent_behavior (sp : SpotifyEnv) (td : TidalEnv)
    (p alb art fav : Bool)
    (hT : ∀ n, sp.tracksCount = Except.ok n →
      sp.savedTracks.items.length ≤ n)
    (hA : ∀ n, sp.albumsCount = Except.ok n →
      sp.savedAlbums.items.length ≤ n)
    (hR : ∀ n, sp.artistsCount = Except.ok n →
      sp.followedArtists.items.length ≤ n) :
    (∀ t ∈ ["playlists", "favorites", "albums", "artists"],
      List.Chain' (fun a b => a ≤ b)
        (progressPercents t (run_sync_streaming sp td p alb art fav)) ∧
      ∀ q ∈ progressPercents t (run_sync_streaming sp td p alb art fav),
        q ≤ 100) ∧
    (∀ q ∈ progressPercents "favorites"
        (run_sync_streaming sp td p alb art fav), q ≤ 95) ∧
    (∀ names ns, sp.playlistsFetch = Except.ok names →
      td.allPlaylists = Except.ok ns → names ≠ [] →
      (progressPercents "playlists" (playlistsBody sp td).1).getLast?
        = some 100) ∧
    (∀ T, sp.albumsCount = Except.ok T → 0 < T →
      sp.savedAlbums.items.length = T →
      (progressPercents "albums" (albumsBody sp td).1).getLast? = some 100) ∧
    (∀ T, sp.artistsCount = Except.ok T → 0 < T →
      sp.followedArtists.items.length = T →
      (progressPercents "artists" (artistsBody sp td).1).getLast?
        = some 100) ∧
    (sp.playlistsFetch = Except.ok [] →
      progressPercents "playlists" (playlistsBody sp td).1 = []) ∧
    (sp.tracksCount = Except.ok 0 →
      ∀ q ∈ progressPercents "favorites" (favoritesBody sp td).1, q ≤ 15) ∧
    (sp.albumsCount = Except.ok 0 →
      ∀ q ∈ progressPercents "albums" (albumsBody sp td).1, q ≤ 15) ∧
    (sp.artistsCount = Except.ok 0 →
      ∀ q ∈ progressPercents "artists" (artistsBody sp td).1, q ≤ 15) := by
  obtain ⟨hc1, hc2, hc3, hc4⟩ := pp_run_cases sp td p alb art fav
  refine ⟨?_, ?_,
    fun names ns h1 h2 h3 => playlistsBody_pp_last sp td names ns h1 h2 h3,
    fun T h1 h2 h3 => albumsBody_pp_last sp td T h1 h2 h3,
    fun T h1 h2 h3 => artistsBody_pp_last sp td T h1 h2 h3,
    fun hf => playlistsBody_pp_zero sp td hf,
    fun hc0 => favoritesBody_pp_zero sp td hc0
      (List.length_eq_zero.mp (Nat.le_zero.mp (hT 0 hc0))),
    fun hc0 => albumsBody_pp_zero sp td hc0
      (List.length_eq_zero.mp (Nat.le_zero.mp (hA 0 hc0))),
    fun hc0 => artistsBody_pp_zero sp td hc0
      (List.length_eq_zero.mp (Nat.le_zero.mp (hR 0 hc0)))⟩
  · intro t ht
    simp only [List.mem_cons, List.not_mem_nil, or_false] at ht
    rcases ht with rfl | rfl | rfl | rfl
    · rcases hc1 with h | h
      · rw [h]
        exact ⟨List.chain'_nil, by simp⟩
      · rw [h]
        exact playlistsBody_pp_good sp td
    · rcases hc2 with h | h
      · rw [h]
        exact ⟨List.chain'_nil, by simp⟩
      · rw [h]
        obtain ⟨hch, hb⟩ := favoritesBody_pp_good sp td hT
        exact ⟨hch, fun q hq => le_trans (hb q hq) (by omega)⟩
    · rcases hc3 with h | h
      · rw [h]
        exact ⟨List.chain'_nil, by simp⟩
      · rw [h]
        exact albumsBody_pp_good sp td hA
    · rcases hc4 with h | h
      · rw [h]
        exact ⟨List.chain'_nil, by simp⟩
      · rw [h]
        exact artistsBody_pp_good sp td hR
  · intro q hq
    rcases hc2 with h | h
    · rw [h] at hq
      simp at hq
    · rw [h] at hq
      exact (favoritesBody_pp_good sp td hT).2 q hq

theorem c1_progress_percent_behavior_witness :
    ((∀ n, emptySp.tracksCount = Except.ok n →
        emptySp.savedTracks.items.length ≤ n) ∧
      (∀ n, emptySp.albumsCount = Except.ok n →
        emptySp.savedAlbums.items.length ≤ n) ∧
      (∀ n, emptySp.artistsCount = Except.ok n →
        emptySp.followedArtists.items.length ≤ n)) ∧
    (∀ q ∈ progressPercents "favorites"
        (run_sync_streaming emptySp emptyTd true true true true),
      q ≤ 95) := by
  have h1 : ∀ n, emptySp.tracksCount = Except.ok n →
      emptySp.savedTracks.items.length ≤ n := by
    intro n hn
    injection hn with h
    subst h
    decide
  have h2 : ∀ n, emptySp.albumsCount = Except.ok n →
      emptySp.savedAlbums.items.length ≤ n := by
    intro n hn
    injection hn with h
    subst h
    decide
  have h3 : ∀ n, emptySp.artistsCount = Except.ok n →
      emptySp.followedArtists.items.length ≤ n := by
    intro n hn
    injection hn with h
    subst h
    decide
  exact ⟨⟨h1, h2, h3⟩,
    (c1_progress_percent_behavior emptySp emptyTd true true true true
      h1 h2 h3).2.1⟩

end SpotifyToTidal
